import Mathlib

/-!
# chg: the fast client for the Mercurial command server

A shallow embedding of the parts of `contrib/chg/chg.c` that decide how a run of the
client picks its socket, which arguments it forwards to the server for validation, when
it falls back to the original tool, and how it obeys the instructions a server sends back.

C strings are lists of characters (the bytes before the terminating NUL, which therefore
never occurs inside a value); `byteAt` reads the terminator past the last character.
An argument vector is the list `argv[0], ..., argv[argc - 1]` of its (non-null) strings.
Routines that can end the process return an `Outcome`.
-/

namespace Chg

/-- A C string: the bytes that precede its terminating NUL. -/
abbrev CStr := List Char

/-- A string constant of the source. -/
def cstr (s : String) : CStr := s.toList

/-- The byte `s[i]` of a C string, the terminator included. -/
def byteAt (s : CStr) (i : Nat) : Char := s.getD i (Char.ofNat 0)

/-- The argument that ends option parsing. -/
def dashdash : CStr := ['-', '-']

/-- `PATH_MAX`, as the source defines it where the system headers do not. -/
def PATH_MAX : Nat := 4096

/-- `struct cmdserveropts`; `argsize` is the length of `args`. -/
structure cmdserveropts where
  sockname : CStr
  initsockname : CStr
  redirectsockname : CStr
  args : List CStr
deriving DecidableEq

/-- How a routine that may end the process finishes: it returns a value, or it calls
`exit(status)`, or it calls `abortmsg` with a diagnostic. -/
inductive Outcome (α : Type) where
  | ret (a : α)
  | exit (status : Int)
  | abort (msg : String)
deriving DecidableEq

/-! ## Sensitive flags -/

/-- The table `flags[]` of `testsensitiveflag`: name and number of following arguments. -/
def flags : List (CStr × Nat) :=
  [(cstr "--config", 1), (cstr "--cwd", 1), (cstr "--repo", 1),
   (cstr "--repository", 1), (cstr "--traceback", 0), (cstr "-R", 1)]

/-- The `for` loop of `testsensitiveflag` over the rest of the table. `memcmp(arg, name, len)`
is zero exactly when the first `len` bytes of `arg` are those of `name`. -/
def testsensitiveflag.scan (arg : CStr) : List (CStr × Nat) → Nat
  | [] => 0
  | (name, narg) :: rest =>
    let len := name.length
    if arg.take len = name then
      if byteAt arg len = Char.ofNat 0 then narg + 1
      else if byteAt arg len = '=' ∧ narg > 0 then 1
      else if byteAt name 1 ≠ '-' then 1
      else testsensitiveflag.scan arg rest
    else testsensitiveflag.scan arg rest

/-- `testsensitiveflag`: 0 if `arg` is not a sensitive flag, otherwise the number of
arguments, starting from this one, that go to the server. -/
def testsensitiveflag (arg : CStr) : Nat := testsensitiveflag.scan arg flags

/-- The `for` loop of `setcmdserverargs`, from index `i` with `args` collected so far.
`continue` advances by one, a copied group of `n` arguments advances by `n`. No `argv[i]`
with `i < argc` is null, so the null test of the source never fires. -/
def setcmdserverargs.loop (argv : List CStr) (i : Nat) (args : List CStr) : List CStr :=
  if h : i < argv.length then
    if argv[i] = dashdash then args
    else
      let n := testsensitiveflag argv[i]
      if n = 0 ∨ i + n > argv.length then setcmdserverargs.loop argv (i + 1) args
      else setcmdserverargs.loop argv (i + n) (args ++ (argv.drop i).take n)
  else args
termination_by argv.length - i
decreasing_by all_goals simp_wf; all_goals omega

/-- `setcmdserverargs`: parse `argv` and put the sensitive flags into `opts->args`. -/
def setcmdserverargs (opts : cmdserveropts) (argv : List CStr) : cmdserveropts :=
  { opts with args := setcmdserverargs.loop argv 0 [] }

/-! ## Unsupported commands -/

def SERVE : Nat := 1
def DAEMON : Nat := 2
def SERVEDAEMON : Nat := SERVE ||| DAEMON

/-- The `for` loop of `isunsupported` over the remaining arguments. -/
def isunsupported.loop : List CStr → Nat → Nat
  | [], state => state
  | a :: rest, state =>
    if a = dashdash then state
    else if a = cstr "serve" then isunsupported.loop rest (state ||| SERVE)
    else if a = cstr "-d" ∨ a = cstr "--daemon" then isunsupported.loop rest (state ||| DAEMON)
    else isunsupported.loop rest state

/-- `isunsupported`; `fcntl_getfd fd` is the value of `fcntl(fd, F_GETFD)`. -/
def isunsupported (fcntl_getfd : Nat → Int) (argv : List CStr) : Bool :=
  if fcntl_getfd 0 = -1 ∨ fcntl_getfd 1 = -1 ∨ fcntl_getfd 2 = -1 then true
  else (isunsupported.loop argv 0 &&& SERVEDAEMON) == SERVEDAEMON

/-! ## Instructions from the server -/

/-- The C `isspace` in the C locale. -/
def isspace (c : Char) : Bool :=
  c.toNat = 32 ∨ (9 ≤ c.toNat ∧ c.toNat ≤ 13)

/-- The value of a run of decimal digits. -/
def digitsval (ds : List Char) : Nat :=
  ds.foldl (fun acc c => acc * 10 + (c.toNat - 48)) 0

/-- The value a 32-bit `int` holds after an integer is stored into it or read as one:
the two's complement reading of its low 32 bits (`2147483648` is `2 ^ 31`). -/
def toint32 (v : Int) : Int := (v + 2147483648) % 4294967296 - 2147483648

/-- The result `strtol` gives for a written integer: the integer, saturated to the range
`LONG_MIN .. LONG_MAX` of a 64-bit `long`. -/
def strtol_clamp (v : Int) : Int :=
  max (-9223372036854775808) (min v 9223372036854775807)

/-- The libc call `sscanf(s, "%d", &n) == 1` with the value stored in the `int n`: white
space is skipped, an optional sign and a non-empty run of decimal digits are read. The GNU C
library converts the digits with `strtol` and stores the `long` it gets into the `int`, so
the value stored is the integer written when that fits an `int`, and its saturated and
truncated reading otherwise. -/
def sscanf_d (s : CStr) : Option Int :=
  let body := s.dropWhile isspace
  let neg := body.head? = some '-'
  let rest := if body.head? = some '-' ∨ body.head? = some '+' then body.tail else body
  let ds := rest.takeWhile Char.isDigit
  if ds = [] then none
  else some (toint32 (strtol_clamp
    (if neg then - (digitsval ds : Int) else (digitsval ds : Int))))

/-- What a routine left behind: how it finished, the options as it left them, and the
paths it passed to `unlink(2)`, oldest first. -/
structure Effect (α : Type) where
  outcome : Outcome α
  opts : cmdserveropts
  unlinked : List CStr
deriving DecidableEq

/-- The `for` loop of `runinstructions` over the remaining instructions. `snprintf` stores
at most `PATH_MAX - 1` bytes and returns the length of the whole path. -/
def runinstructions.loop (opts : cmdserveropts) (needreconnect : Bool) (unlinked : List CStr) :
    List CStr → Effect Bool
  | [] => ⟨.ret needreconnect, opts, unlinked⟩
  | inst :: rest =>
    if inst.take 7 = cstr "unlink " then
      runinstructions.loop opts needreconnect (unlinked ++ [inst.drop 7]) rest
    else if inst.take 9 = cstr "redirect " then
      let r := (inst.drop 9).length
      let opts1 := { opts with redirectsockname := (inst.drop 9).take (PATH_MAX - 1) }
      if r ≥ PATH_MAX then ⟨.abort "redirect path is too long", opts1, unlinked⟩
      else runinstructions.loop opts1 true unlinked rest
    else if inst.take 5 = cstr "exit " then
      match sscanf_d (inst.drop 5) with
      | none => ⟨.abort "cannot read the exit code", opts, unlinked⟩
      | some n => ⟨.exit n, opts, unlinked⟩
    else if inst = cstr "reconnect" then
      runinstructions.loop opts true unlinked rest
    else ⟨.abort "unknown instruction", opts, unlinked⟩

/-- `runinstructions`; `insts` is `none` for a null pointer. -/
def runinstructions (opts : cmdserveropts) (insts : Option (List CStr)) : Effect Bool :=
  match insts with
  | none => ⟨.ret false, opts, []⟩
  | some l => runinstructions.loop { opts with redirectsockname := [] } false [] l

/-! ## The session loop of `main` -/

/-- The calls a session makes that the server or the file system can observe.
`connect retry sockname` is a call of `connectcmdserver` made while the counter `retry`
has the given value; `sockname` is the address it tries first. -/
inductive Event where
  | connect (retry : Nat) (sockname : CStr)
  | setenv
  | validate
  | unlink (path : CStr)
  | close
  | runcommand
deriving DecidableEq

/-- The values of the counter `retry` at the successive calls of `connectcmdserver`. -/
def counters (trace : List Event) : List Nat :=
  trace.filterMap (fun e => match e with
    | Event.connect retry _ => some retry
    | _ => none)

/-- The address `connectcmdserver` tries first. -/
def connectcmdserver.sockname (opts : cmdserveropts) : CStr :=
  if opts.redirectsockname ≠ [] then opts.redirectsockname else opts.sockname

/-- The `while (1)` loop of `main`, entered with the counter at `retry`. `validate k` is the
instruction list the server returns to the call of `hgc_validate` made with the counter at
`k` (`none` for a null pointer). `connectcmdserver` is taken to return a handle. On `break`
the loop returns the options and the counter. -/
def main.loop (validate : Nat → Option (List CStr)) (retry : Nat) (opts : cmdserveropts)
    (trace : List Event) : Outcome (cmdserveropts × Nat) × List Event :=
  let r := runinstructions opts (validate retry)
  let trace1 := trace ++ [Event.connect retry (connectcmdserver.sockname opts), Event.setenv,
    Event.validate] ++ r.unlinked.map Event.unlink
  match r.outcome with
  | .exit n => (.exit n, trace1)
  | .abort msg => (.abort msg, trace1)
  | .ret needreconnect =>
    if needreconnect = false then (.ret (r.opts, retry), trace1)
    else if retry + 1 > 10 then (.abort "too many redirections", trace1 ++ [Event.close])
    else main.loop validate (retry + 1) r.opts (trace1 ++ [Event.close])
termination_by 11 - retry
decreasing_by all_goals simp_wf; all_goals omega

/-- The part of `main` from the first connection on: the loop, then the command.
`runcommand` is the exit code `hgc_runcommand` returns. -/
def main.session (validate : Nat → Option (List CStr)) (runcommand : Int)
    (opts : cmdserveropts) : Outcome Int × List Event :=
  match main.loop validate 0 opts [] with
  | (.exit n, trace) => (.exit n, trace)
  | (.abort msg, trace) => (.abort msg, trace)
  | (.ret _, trace) => (.ret runcommand, trace ++ [Event.runcommand, Event.close])

/-! ## Socket paths -/

/-- The fields of `struct stat` the client reads. -/
structure Stat where
  st_mode : Nat
  st_uid : Nat
deriving DecidableEq

/-- `S_ISDIR`. -/
def S_ISDIR (m : Nat) : Bool := m &&& 0o170000 == 0o040000

/-- `EEXIST`. -/
def EEXIST : Nat := 17

/-- The process and its surroundings as the socket path routines query them: the
environment, the effective user id and the process id, what `lstat` finds at a path
(`none` when it fails), and the return value and `errno` of `mkdir`. User ids are values of
the unsigned 32-bit `uid_t`. -/
structure Sys where
  getenv : CStr → Option CStr
  geteuid : Nat
  getpid : Nat
  lstat : CStr → Option Stat
  mkdir : CStr → Nat → Int × Nat

/-- The conversion `%d` of `printf`. -/
def fmt_d (n : Int) : CStr :=
  if n < 0 then '-' :: Nat.toDigits 10 n.natAbs else Nat.toDigits 10 n.toNat

/-- The conversion `%u` of `printf` applied to a value cast to `unsigned`. -/
def fmt_u (n : Nat) : CStr := Nat.toDigits 10 (n % 2 ^ 32)

/-- `preparesockdir`. -/
def preparesockdir (sys : Sys) (sockdir : CStr) : Outcome Unit :=
  let (r, errno) := sys.mkdir sockdir 0o700
  if r < 0 ∧ errno ≠ EEXIST then .abort "cannot create sockdir"
  else
    match sys.lstat sockdir with
    | none => .abort "cannot stat"
    | some st =>
      if ¬ S_ISDIR st.st_mode then .abort "cannot create sockdir (file exists)"
      else if st.st_uid ≠ sys.geteuid ∨ st.st_mode &&& 0o077 ≠ 0 then .abort "insecure sockdir"
      else .ret ()

/-- `checkruntimedir`. -/
def checkruntimedir (sys : Sys) (sockdir : CStr) : Bool :=
  match sys.lstat sockdir with
  | none => false
  | some st =>
    if ¬ S_ISDIR st.st_mode then false
    else st.st_uid = sys.geteuid ∧ st.st_mode &&& 0o777 = 0o700

/-- The `else` branch of `getdefaultsockdir`: the string `"%s/chg%d"` of `tmpdir` and the
effective user id. The `uid_t` is passed to `%d`, which prints it read as an `int`. -/
def getdefaultsockdir.tmp (sys : Sys) : CStr :=
  let tmpdir :=
    match sys.getenv (cstr "TMPDIR") with
    | some t => t
    | none => cstr "/tmp"
  tmpdir ++ cstr "/chg" ++ fmt_d (toint32 sys.geteuid)

/-- `getdefaultsockdir`: the content of `sockdir[]` when it returns. `snprintf` returns the
length of the whole string, which must be below `size`. -/
def getdefaultsockdir (sys : Sys) (size : Nat) : Outcome CStr :=
  let sockdir :=
    match sys.getenv (cstr "XDG_RUNTIME_DIR") with
    | some runtimedir =>
      if checkruntimedir sys runtimedir then runtimedir ++ cstr "/chg"
      else getdefaultsockdir.tmp sys
    | none => getdefaultsockdir.tmp sys
  if sockdir.length ≥ size then .abort "too long TMPDIR" else .ret sockdir

/-- The two `snprintf` calls that end `setcmdserveropts`. -/
def setcmdserveropts.names (sys : Sys) (opts : cmdserveropts) (sockname : CStr) :
    Outcome cmdserveropts :=
  if sockname.length ≥ PATH_MAX then .abort "too long TMPDIR or CHGSOCKNAME"
  else
    let initsockname := sockname ++ cstr "." ++ fmt_u sys.getpid
    if initsockname.length ≥ PATH_MAX then .abort "too long TMPDIR or CHGSOCKNAME"
    else .ret { opts with sockname := sockname, initsockname := initsockname }

/-- `setcmdserveropts`. -/
def setcmdserveropts (sys : Sys) (opts : cmdserveropts) : Outcome cmdserveropts :=
  match sys.getenv (cstr "CHGSOCKNAME") with
  | none =>
    match getdefaultsockdir sys PATH_MAX with
    | .exit n => .exit n
    | .abort msg => .abort msg
    | .ret sockdir =>
      match preparesockdir sys sockdir with
      | .exit n => .exit n
      | .abort msg => .abort msg
      | .ret _ => setcmdserveropts.names sys opts (sockdir ++ cstr "/server")
  | some envsockname => setcmdserveropts.names sys opts envsockname

/-! ## Sample environments -/

/-- A user 1000, process 4242, with `TMPDIR=/tmp`, no runtime directory, and a socket
directory `/tmp/chg1000` that exists already, is theirs and has mode 0700. `CHGSOCKNAME`
is as given. -/
def sysTmp (chgsockname : Option CStr) : Sys where
  getenv := fun name =>
    if name = cstr "TMPDIR" then some (cstr "/tmp")
    else if name = cstr "CHGSOCKNAME" then chgsockname
    else none
  geteuid := 1000
  getpid := 4242
  lstat := fun path => if path = cstr "/tmp/chg1000" then some ⟨0o040700, 1000⟩ else none
  mkdir := fun _ _ => (-1, EEXIST)

/-- The same user with `XDG_RUNTIME_DIR=/run/user/1000`, a directory with the given mode
and owner. -/
def sysRun (mode : Nat) (owner : Nat) : Sys where
  getenv := fun name =>
    if name = cstr "XDG_RUNTIME_DIR" then some (cstr "/run/user/1000") else none
  geteuid := 1000
  getpid := 4242
  lstat := fun path =>
    if path = cstr "/run/user/1000" then some ⟨mode, owner⟩
    else if path = cstr "/run/user/1000/chg" then some ⟨0o040700, 1000⟩
    else none
  mkdir := fun _ _ => (0, 0)

/-- A user with the given id, no runtime directory and no `TMPDIR`. -/
def sysUid (euid : Nat) : Sys where
  getenv := fun _ => none
  geteuid := euid
  getpid := 4242
  lstat := fun _ => none
  mkdir := fun _ _ => (0, 0)

/-! # Lemmas and claims -/

/-! ### The scan of the argument vector -/

theorem testsensitiveflag_scan_le (arg : CStr) (fl : List (CStr × Nat))
    (h : ∀ p ∈ fl, p.2 ≤ 1) : testsensitiveflag.scan arg fl ≤ 2 := by
  induction fl with
  | nil => simp [testsensitiveflag.scan]
  | cons p rest ih =>
    obtain ⟨name, narg⟩ := p
    have h1 : narg ≤ 1 := h (name, narg) (List.mem_cons_self _ _)
    have h2 := ih (fun q hq => h q (List.mem_cons_of_mem _ hq))
    simp only [testsensitiveflag.scan]
    split_ifs <;> omega

theorem testsensitiveflag_le (arg : CStr) : testsensitiveflag arg ≤ 2 :=
  testsensitiveflag_scan_le arg flags (by decide)

theorem testsensitiveflag_exact (name : CStr) (narg : Nat) (h : (name, narg) ∈ flags) :
    testsensitiveflag name = narg + 1 := by
  simp only [flags, List.mem_cons, Prod.mk.injEq, List.mem_singleton, List.not_mem_nil, or_false] at h
  rcases h with ⟨rfl, rfl⟩ | ⟨rfl, rfl⟩ | ⟨rfl, rfl⟩ | ⟨rfl, rfl⟩ | ⟨rfl, rfl⟩ | ⟨rfl, rfl⟩ <;> decide

theorem setcmdserverargs_loop_eq (argv : List CStr) (i : Nat) (args : List CStr) :
    setcmdserverargs.loop argv i args =
      if h : i < argv.length then
        if argv[i] = dashdash then args
        else if testsensitiveflag argv[i] = 0 ∨ i + testsensitiveflag argv[i] > argv.length then
          setcmdserverargs.loop argv (i + 1) args
        else setcmdserverargs.loop argv (i + testsensitiveflag argv[i])
          (args ++ (argv.drop i).take (testsensitiveflag argv[i]))
      else args := by
  rw [setcmdserverargs.loop]

theorem setcmdserverargs_loop_acc (argv : List CStr) (i : Nat) (args : List CStr) :
    setcmdserverargs.loop argv i args = args ++ setcmdserverargs.loop argv i [] := by
  rw [setcmdserverargs_loop_eq argv i args, setcmdserverargs_loop_eq argv i []]
  by_cases h : i < argv.length
  · simp only [h, dite_true]
    by_cases hdd : argv[i] = dashdash
    · simp [hdd]
    · simp only [hdd, if_false]
      by_cases hn : testsensitiveflag argv[i] = 0 ∨ i + testsensitiveflag argv[i] > argv.length
      · simp only [hn, if_true]
        exact setcmdserverargs_loop_acc argv (i + 1) args
      · simp only [hn, if_false, List.nil_append]
        have hpos : 0 < testsensitiveflag argv[i] := by omega
        rw [setcmdserverargs_loop_acc argv _ (args ++ _), setcmdserverargs_loop_acc argv _ (List.take _ _), List.append_assoc]
  · simp [h]
termination_by argv.length - i
decreasing_by all_goals simp_wf; all_goals omega

/-- The scan started at index `pre.length + j` of `pre ++ l` is the scan of `l` started at `j`. -/
theorem setcmdserverargs_loop_shift (pre l : List CStr) (j : Nat) (args : List CStr) :
    setcmdserverargs.loop (pre ++ l) (pre.length + j) args = setcmdserverargs.loop l j args := by
  rw [setcmdserverargs_loop_eq (pre ++ l), setcmdserverargs_loop_eq l]
  by_cases h : j < l.length
  · have h' : pre.length + j < (pre ++ l).length := by simp; omega
    have hget : (pre ++ l)[pre.length + j] = l[j] := by
      rw [List.getElem_append_right (by omega)]; simp
    have hdrop : List.drop (pre.length + j) (pre ++ l) = List.drop j l := by
      rw [List.drop_append_eq_append_drop]; simp [List.drop_eq_nil_of_le]
    have hlen : (pre ++ l).length = pre.length + l.length := List.length_append _ _
    rw [dif_pos h', dif_pos h, hget, hdrop, hlen]
    by_cases hdd : l[j] = dashdash
    · simp [hdd]
    · rw [if_neg hdd, if_neg hdd]
      by_cases hn : testsensitiveflag l[j] = 0 ∨ j + testsensitiveflag l[j] > l.length
      · have hn' : testsensitiveflag l[j] = 0 ∨
            pre.length + j + testsensitiveflag l[j] > pre.length + l.length := by omega
        rw [if_pos hn, if_pos hn']
        exact setcmdserverargs_loop_shift pre l (j + 1) args
      · have hn' : ¬ (testsensitiveflag l[j] = 0 ∨
            pre.length + j + testsensitiveflag l[j] > pre.length + l.length) := by omega
        rw [if_neg hn, if_neg hn']
        have hpos : 0 < testsensitiveflag l[j] := by omega
        rw [Nat.add_assoc]
        exact setcmdserverargs_loop_shift pre l (j + testsensitiveflag l[j]) _
  · have h' : ¬ pre.length + j < (pre ++ l).length := by simp; omega
    rw [dif_neg h', dif_neg h]
termination_by l.length - j
decreasing_by all_goals simp_wf; all_goals omega

/-- List form of the scan from the start of an argument vector. -/
theorem setcmdserverargs_loop_cons (x : CStr) (xs : List CStr) :
    setcmdserverargs.loop (x :: xs) 0 [] =
      if x = dashdash then []
      else if testsensitiveflag x = 0 ∨ testsensitiveflag x > xs.length + 1 then
        setcmdserverargs.loop xs 0 []
      else (x :: xs).take (testsensitiveflag x) ++
        setcmdserverargs.loop ((x :: xs).drop (testsensitiveflag x)) 0 [] := by
  rw [setcmdserverargs_loop_eq (x :: xs) 0 []]
  simp only [List.length_cons, Nat.zero_lt_succ, dite_true, List.getElem_cons_zero,
    Nat.zero_add, List.drop_zero, List.nil_append]
  by_cases hdd : x = dashdash
  · simp [hdd]
  · rw [if_neg hdd, if_neg hdd]
    by_cases hn : testsensitiveflag x = 0 ∨ testsensitiveflag x > xs.length + 1
    · rw [if_pos hn, if_pos hn]
      exact setcmdserverargs_loop_shift [x] xs 0 []
    · rw [if_neg hn, if_neg hn, setcmdserverargs_loop_acc]
      congr 1
      have hlen : (List.take (testsensitiveflag x) (x :: xs)).length = testsensitiveflag x := by
        rw [List.length_take, List.length_cons]; omega
      have := setcmdserverargs_loop_shift (List.take (testsensitiveflag x) (x :: xs))
        (List.drop (testsensitiveflag x) (x :: xs)) 0 []
      rw [List.take_append_drop, hlen, Nat.add_zero] at this
      exact this

theorem setcmdserverargs_loop_nil : setcmdserverargs.loop [] 0 [] = [] := by
  rw [setcmdserverargs_loop_eq]; simp


/-- A complete group at the head of the vector is copied and the scan resumes behind it. -/
theorem setcmdserverargs_loop_group (x : CStr) (g rest : List CStr)
    (hx : x ≠ dashdash) (hn : testsensitiveflag x = g.length + 1) :
    setcmdserverargs.loop (x :: g ++ rest) 0 [] = x :: g ++ setcmdserverargs.loop rest 0 [] := by
  rw [List.cons_append, setcmdserverargs_loop_cons, if_neg hx,
    if_neg (by rw [hn, List.length_append]; omega), hn]
  simp

theorem setcmdserverargs_loop_concat_aux (n : Nat) :
    ∀ a : List CStr, a.length ≤ n → ∀ t : List CStr,
      setcmdserverargs.loop (setcmdserverargs.loop a 0 [] ++ t) 0 [] =
        setcmdserverargs.loop a 0 [] ++ setcmdserverargs.loop t 0 [] := by
  induction n with
  | zero =>
    intro a ha t
    have : a = [] := List.length_eq_zero.mp (by omega)
    subst this
    simp [setcmdserverargs_loop_nil]
  | succ n ih =>
    intro a ha t
    cases a with
    | nil => simp [setcmdserverargs_loop_nil]
    | cons x xs =>
      have hxs : xs.length ≤ n := by simpa using ha
      rw [setcmdserverargs_loop_cons x xs]
      by_cases hdd : x = dashdash
      · simp [hdd]
      · rw [if_neg hdd]
        by_cases hn : testsensitiveflag x = 0 ∨ testsensitiveflag x > xs.length + 1
        · rw [if_pos hn]; exact ih xs hxs t
        · rw [if_neg hn]
          obtain ⟨m, hm⟩ : ∃ m, testsensitiveflag x = m + 1 := ⟨testsensitiveflag x - 1, by omega⟩
          have hmx : m ≤ xs.length := by omega
          rw [hm, List.take_succ_cons, List.drop_succ_cons, List.append_assoc]
          have hg : testsensitiveflag x = (List.take m xs).length + 1 := by
            rw [List.length_take, hm]; omega
          rw [setcmdserverargs_loop_group x (List.take m xs) _ hdd hg]
          rw [ih (List.drop m xs) (by rw [List.length_drop]; omega) t]
          simp

theorem setcmdserverargs_loop_sublist_aux (n : Nat) :
    ∀ a : List CStr, a.length ≤ n → (setcmdserverargs.loop a 0 []).Sublist a := by
  induction n with
  | zero =>
    intro a ha
    have : a = [] := List.length_eq_zero.mp (by omega)
    subst this
    simp [setcmdserverargs_loop_nil]
  | succ n ih =>
    intro a ha
    cases a with
    | nil => simp [setcmdserverargs_loop_nil]
    | cons x xs =>
      have hxs : xs.length ≤ n := by simpa using ha
      rw [setcmdserverargs_loop_cons x xs]
      by_cases hdd : x = dashdash
      · simp [hdd]
      · rw [if_neg hdd]
        by_cases hn : testsensitiveflag x = 0 ∨ testsensitiveflag x > xs.length + 1
        · rw [if_pos hn]; exact (ih xs hxs).trans (List.sublist_cons_self x xs)
        · rw [if_neg hn]
          have hd : (List.drop (testsensitiveflag x) (x :: xs)).length ≤ n := by
            rw [List.length_drop, List.length_cons]; omega
          have := (List.Sublist.refl (List.take (testsensitiveflag x) (x :: xs))).append (ih _ hd)
          rwa [List.take_append_drop] at this

theorem setcmdserverargs_loop_stop_aux (n : Nat) :
    ∀ pre : List CStr, pre.length ≤ n → (∀ a ∈ pre, a ≠ dashdash) →
      (∀ y, pre.getLast? = some y → testsensitiveflag y ≠ 2) → ∀ post : List CStr,
      setcmdserverargs.loop (pre ++ dashdash :: post) 0 [] = setcmdserverargs.loop pre 0 [] := by
  induction n with
  | zero =>
    intro pre hp _ _ post
    have : pre = [] := List.length_eq_zero.mp (by omega)
    subst this
    rw [List.nil_append, setcmdserverargs_loop_cons, if_pos rfl, setcmdserverargs_loop_nil]
  | succ n ih =>
    intro pre hp hno hlast post
    cases pre with
    | nil => rw [List.nil_append, setcmdserverargs_loop_cons, if_pos rfl, setcmdserverargs_loop_nil]
    | cons x xs =>
      have hxs : xs.length ≤ n := by simpa using hp
      have hdd : x ≠ dashdash := hno x (List.mem_cons_self _ _)
      have hno' : ∀ a ∈ xs, a ≠ dashdash := fun a ha => hno a (List.mem_cons_of_mem _ ha)
      have hle := testsensitiveflag_le x
      rw [List.cons_append, setcmdserverargs_loop_cons, setcmdserverargs_loop_cons x xs, if_neg hdd, if_neg hdd]
      have hlen : (xs ++ dashdash :: post).length = xs.length + post.length + 1 := by
        simp; omega
      by_cases h0 : testsensitiveflag x = 0
      · have hlast' : ∀ y, xs.getLast? = some y → testsensitiveflag y ≠ 2 := by
          intro y hy
          cases xs with
          | nil => simp at hy
          | cons z zs => exact hlast y (by rw [List.getLast?_cons_cons]; exact hy)
        rw [if_pos (Or.inl h0), if_pos (Or.inl h0)]
        exact ih xs hxs hno' hlast' post
      · have hlast2 : ∀ z zs y, xs = z :: zs → zs.getLast? = some y → testsensitiveflag y ≠ 2 := by
          intro z zs y hz hy
          subst hz
          cases zs with
          | nil => simp at hy
          | cons w ws =>
            exact hlast y (by rw [List.getLast?_cons_cons, List.getLast?_cons_cons]; exact hy)
        have hlast1 : ∀ y, xs.getLast? = some y → testsensitiveflag y ≠ 2 := by
          intro y hy
          cases xs with
          | nil => simp at hy
          | cons z zs => exact hlast y (by rw [List.getLast?_cons_cons]; exact hy)
        by_cases h1 : testsensitiveflag x = 1
        · rw [if_neg (by rw [h1, hlen]; omega), if_neg (by rw [h1]; omega), h1]
          simp only [List.take_succ_cons, List.take_zero, List.drop_succ_cons, List.drop_zero]
          rw [ih xs hxs hno' hlast1 post]
        · have h2 : testsensitiveflag x = 2 := by omega
          cases xs with
          | nil => exact absurd h2 (hlast x (by simp))
          | cons z zs =>
            have hzs : zs.length ≤ n := by simp at hxs; omega
            rw [if_neg (by rw [h2, hlen]; simp), if_neg (by rw [h2]; simp), h2]
            simp only [List.cons_append, List.take_succ_cons, List.take_zero,
              List.drop_succ_cons, List.drop_zero]
            rw [ih zs hzs (fun a ha => hno' a (List.mem_cons_of_mem _ ha))
              (fun y hy => hlast2 z zs y rfl hy) post]

/-! ### Claims about the sensitive-flag extractor -/

/-- C1. At any state `(i, args)` of the scan of `setcmdserverargs` whose argument `argv[i]`
is exactly a flag `name` of the table, with `narg` following arguments declared (such an
argument is not `--`): when `narg` arguments follow in `argv`, the flag and exactly those
`narg` arguments are appended to the collected output as one group of `narg + 1` consecutive
arguments and the scan resumes at `i + narg + 1`; when fewer follow, nothing is appended and
the scan goes on at `i + 1`. The vector `app --config ui.foo=1 status` yields
`--config ui.foo=1`. -/
theorem C1_exact_flag_group (argv : List CStr) (i : Nat) (args : List CStr)
    (name : CStr) (narg : Nat) (hflag : (name, narg) ∈ flags)
    (hi : i < argv.length) (hexact : argv[i] = name) :
    (i + narg + 1 ≤ argv.length →
      setcmdserverargs.loop argv i args =
          setcmdserverargs.loop argv (i + narg + 1) (args ++ (argv.drop i).take (narg + 1)) ∧
        setcmdserverargs.loop argv i args =
          args ++ (argv.drop i).take (narg + 1) ++ setcmdserverargs.loop argv (i + narg + 1) [] ∧
        ∃ vals : List CStr, vals.length = narg ∧ (argv.drop i).take (narg + 1) = name :: vals ∧
          (argv.drop (i + 1)).take narg = vals) ∧
    (argv.length < i + narg + 1 →
      setcmdserverargs.loop argv i args = setcmdserverargs.loop argv (i + 1) args) ∧
    (setcmdserverargs ⟨[], [], [], []⟩
        [cstr "app", cstr "--config", cstr "ui.foo=1", cstr "status"]).args =
      [cstr "--config", cstr "ui.foo=1"] := by
  have hn : testsensitiveflag argv[i] = narg + 1 := by
    rw [hexact]; exact testsensitiveflag_exact name narg hflag
  have hdd : argv[i] ≠ dashdash := by
    intro h
    rw [h] at hn
    have : testsensitiveflag dashdash = 0 := by decide
    omega
  refine ⟨fun hfit => ?_, fun htrunc => ?_, ?_⟩
  · have hstep : setcmdserverargs.loop argv i args =
        setcmdserverargs.loop argv (i + narg + 1) (args ++ (argv.drop i).take (narg + 1)) := by
      rw [setcmdserverargs_loop_eq argv i args, dif_pos hi, if_neg hdd,
        if_neg (by rw [hn]; omega), hn, Nat.add_assoc]
    refine ⟨hstep, ?_, ?_⟩
    · rw [hstep, setcmdserverargs_loop_acc]
    · refine ⟨(argv.drop (i + 1)).take narg, ?_, ?_, rfl⟩
      · rw [List.length_take, List.length_drop]; omega
      · rw [List.drop_eq_getElem_cons hi, List.take_succ_cons, hexact]
  · rw [setcmdserverargs_loop_eq argv i args, dif_pos hi, if_neg hdd,
      if_pos (by rw [hn]; omega)]
  · simp +decide [setcmdserverargs, setcmdserverargs.loop]

/-- Witness of C1 at `app --config ui.foo=1 status`, position 1. -/
theorem C1_exact_flag_group_witness :
    setcmdserverargs.loop [cstr "app", cstr "--config", cstr "ui.foo=1", cstr "status"] 1 [] =
      [] ++ [cstr "--config", cstr "ui.foo=1"] ++
        setcmdserverargs.loop [cstr "app", cstr "--config", cstr "ui.foo=1", cstr "status"] 3 [] :=
  ((C1_exact_flag_group [cstr "app", cstr "--config", cstr "ui.foo=1", cstr "status"] 1 []
    (cstr "--config") 1 (by decide) (by decide) rfl).1 (by decide)).2.1

/-- C8. Extracting is idempotent and distributes over a tail: for every `argv` and every
`tail` (in particular every tail without `--`), scanning the extracted arguments followed by
`tail` gives the extracted arguments followed by the extraction of `tail`; and scanning the
extracted arguments alone gives them back. -/
theorem C8_extract_concat (opts : cmdserveropts) (argv tail : List CStr) :
    (setcmdserverargs opts ((setcmdserverargs opts argv).args ++ tail)).args =
        (setcmdserverargs opts argv).args ++ (setcmdserverargs opts tail).args ∧
      (setcmdserverargs opts (setcmdserverargs opts argv).args).args =
        (setcmdserverargs opts argv).args := by
  constructor
  · exact setcmdserverargs_loop_concat_aux argv.length argv (Nat.le_refl _) tail
  · have := setcmdserverargs_loop_concat_aux argv.length argv (Nat.le_refl _) []
    simpa [setcmdserverargs, setcmdserverargs_loop_nil] using this

/-- C9, as stated, fails: in `chg --config -- --traceback` the first `--` is the value of
`--config`; it is copied and the scan goes on, so the output holds `--` and the later
`--traceback` and is no sublist of the arguments before the first `--`. -/
theorem C9_counterexample :
    (setcmdserverargs ⟨[], [], [], []⟩
        ([cstr "chg", cstr "--config"] ++ dashdash :: [cstr "--traceback"])).args =
      [cstr "--config", dashdash, cstr "--traceback"] ∧
    ¬ ((setcmdserverargs ⟨[], [], [], []⟩
        ([cstr "chg", cstr "--config"] ++ dashdash :: [cstr "--traceback"])).args).Sublist
      (([cstr "chg", cstr "--config"] ++ dashdash :: [cstr "--traceback"]).takeWhile
        (fun a => a ≠ dashdash)) := by
  have h : (setcmdserverargs ⟨[], [], [], []⟩
        ([cstr "chg", cstr "--config"] ++ dashdash :: [cstr "--traceback"])).args =
      [cstr "--config", dashdash, cstr "--traceback"] := by
    simp +decide [setcmdserverargs, setcmdserverargs.loop]
  refine ⟨h, ?_⟩
  rw [h]
  decide

/-- C9, amended. The output of the extractor is a sublist of `argv` (order is kept). The
scan stops at a `--` it meets at a scan position: from a state `(i, args)` with
`argv[i] = --` the output is `args`. A `--` right behind an exact value-taking flag met at a
scan position is copied with the flag, as its value, and the scan goes on behind it. When
the argument right before the first `--` is not an exact value-taking flag
(`testsensitiveflag` does not give 2 for it; or `--` comes first), the output is the
extraction of the arguments before that `--`, hence a sublist of them: nothing at or after
the first `--` appears. -/
theorem C9_stops_at_dashdash (opts : cmdserveropts) (argv pre post : List CStr) :
    ((setcmdserverargs opts argv).args).Sublist argv ∧
    (∀ args : List CStr,
      setcmdserverargs.loop (pre ++ dashdash :: post) pre.length args = args) ∧
    (∀ (name : CStr) (args : List CStr), (name, 1) ∈ flags →
      setcmdserverargs.loop (pre ++ name :: dashdash :: post) pre.length args =
        setcmdserverargs.loop (pre ++ name :: dashdash :: post) (pre.length + 2)
          (args ++ [name, dashdash])) ∧
    ((∀ a ∈ pre, a ≠ dashdash) →
      (∀ y, pre.getLast? = some y → testsensitiveflag y ≠ 2) →
      (setcmdserverargs opts (pre ++ dashdash :: post)).args = (setcmdserverargs opts pre).args ∧
        ((setcmdserverargs opts (pre ++ dashdash :: post)).args).Sublist pre) := by
  refine ⟨setcmdserverargs_loop_sublist_aux _ _ (Nat.le_refl _), fun args => ?_,
    fun name args hflag => ?_, fun hno hlast => ?_⟩
  · have := setcmdserverargs_loop_shift pre (dashdash :: post) 0 args
    rw [Nat.add_zero] at this
    rw [this, setcmdserverargs_loop_eq]
    simp
  · have hn : testsensitiveflag name = 2 := testsensitiveflag_exact name 1 hflag
    have hdd : name ≠ dashdash := by
      intro h
      rw [h] at hn
      exact absurd hn (by decide)
    have h0 := setcmdserverargs_loop_shift pre (name :: dashdash :: post) 0 args
    rw [Nat.add_zero] at h0
    rw [h0, setcmdserverargs_loop_shift pre (name :: dashdash :: post) 2,
      setcmdserverargs_loop_eq (name :: dashdash :: post) 0 args]
    simp [hn, hdd]
  · have h := setcmdserverargs_loop_stop_aux pre.length pre (Nat.le_refl _) hno hlast post
    refine ⟨h, ?_⟩
    show (setcmdserverargs.loop (pre ++ dashdash :: post) 0 []).Sublist pre
    rw [h]
    exact setcmdserverargs_loop_sublist_aux _ _ (Nat.le_refl _)

/-- Witness of C9 (amended) at `chg --cwd /r -- --traceback`. -/
theorem C9_stops_at_dashdash_witness :
    (setcmdserverargs ⟨[], [], [], []⟩
        ([cstr "chg", cstr "--cwd", cstr "/r"] ++ dashdash :: [cstr "--traceback"])).args =
      (setcmdserverargs ⟨[], [], [], []⟩ [cstr "chg", cstr "--cwd", cstr "/r"]).args ∧
    ((setcmdserverargs ⟨[], [], [], []⟩
        ([cstr "chg", cstr "--cwd", cstr "/r"] ++ dashdash :: [cstr "--traceback"])).args).Sublist
      [cstr "chg", cstr "--cwd", cstr "/r"] :=
  (C9_stops_at_dashdash ⟨[], [], [], []⟩ [] [cstr "chg", cstr "--cwd", cstr "/r"]
    [cstr "--traceback"]).2.2.2 (by decide) (by decide)

/-! ### The fallback test -/

theorem isunsupported_or_bits (s : Nat) (h : s < 4) :
    (s ||| SERVE < 4 ∧ ((s ||| SERVE) % 2 = 1) ∧ ((s ||| SERVE) / 2 = s / 2)) ∧
    (s ||| DAEMON < 4 ∧ ((s ||| DAEMON) % 2 = s % 2) ∧ ((s ||| DAEMON) / 2 = 1)) ∧
    ((s &&& SERVEDAEMON) = SERVEDAEMON ↔ s % 2 = 1 ∧ s / 2 = 1) := by
  interval_cases s <;> decide

theorem isunsupported_loop_spec (l : List CStr) :
    ∀ s : Nat, s < 4 →
      isunsupported.loop l s < 4 ∧
      ((isunsupported.loop l s) % 2 = 1 ↔
        s % 2 = 1 ∨ cstr "serve" ∈ l.takeWhile (fun a => a ≠ dashdash)) ∧
      ((isunsupported.loop l s) / 2 = 1 ↔
        s / 2 = 1 ∨ cstr "-d" ∈ l.takeWhile (fun a => a ≠ dashdash) ∨
          cstr "--daemon" ∈ l.takeWhile (fun a => a ≠ dashdash)) := by
  induction l with
  | nil => intro s hs; simp [isunsupported.loop, hs]
  | cons a rest ih =>
    intro s hs
    obtain ⟨⟨hS1, hS2, hS3⟩, ⟨hD1, hD2, hD3⟩, -⟩ := isunsupported_or_bits s hs
    by_cases hdd : a = dashdash
    · simp [isunsupported.loop, hdd, hs]
    · by_cases hserve : a = cstr "serve"
      · have := ih (s ||| SERVE) hS1
        subst hserve
        simp only [isunsupported.loop, if_neg hdd, if_true]
        rw [List.takeWhile_cons_of_pos (by simpa using hdd)]
        simp only [List.mem_cons, true_or, or_true, iff_true]
        refine ⟨this.1, this.2.1.mpr (Or.inl hS2), ?_⟩
        rw [this.2.2, hS3]
        have e1 : cstr "-d" ≠ cstr "serve" := by decide
        have e2 : cstr "--daemon" ≠ cstr "serve" := by decide
        simp [e1, e2]
      · by_cases hd : a = cstr "-d" ∨ a = cstr "--daemon"
        · have := ih (s ||| DAEMON) hD1
          simp only [isunsupported.loop, if_neg hdd, if_neg hserve, if_pos hd]
          rw [List.takeWhile_cons_of_pos (by simpa using hdd)]
          simp only [List.mem_cons]
          refine ⟨this.1, ?_, ?_⟩
          · rw [this.2.1, hD2]
            have : cstr "serve" ≠ a := fun h => hserve h.symm
            simp [this]
          · have h1 : isunsupported.loop rest (s ||| DAEMON) / 2 = 1 := this.2.2.mpr (Or.inl hD3)
            simp only [h1, true_iff]
            rcases hd with hd | hd
            · exact Or.inr (Or.inl (Or.inl hd.symm))
            · exact Or.inr (Or.inr (Or.inl hd.symm))
        · have := ih s hs
          simp only [isunsupported.loop, if_neg hdd, if_neg hserve, if_neg hd]
          rw [List.takeWhile_cons_of_pos (by simpa using hdd)]
          simp only [List.mem_cons]
          have n1 : cstr "serve" ≠ a := fun h => hserve h.symm
          have n2 : cstr "-d" ≠ a := fun h => hd (Or.inl h.symm)
          have n3 : cstr "--daemon" ≠ a := fun h => hd (Or.inr h.symm)
          simp only [n1, n2, n3, false_or]
          exact this

/-- C2. When the three standard descriptors are present (no `fcntl(fd, F_GETFD)` gives -1),
`isunsupported` is true exactly when, among the arguments before the first `--`, one is
`serve` and one is `-d` or `--daemon`, in either order; when a descriptor is absent it is
true whatever the arguments. -/
theorem C2_isunsupported (fcntl_getfd : Nat → Int) (argv : List CStr) :
    ((fcntl_getfd 0 ≠ -1 ∧ fcntl_getfd 1 ≠ -1 ∧ fcntl_getfd 2 ≠ -1) →
      (isunsupported fcntl_getfd argv = true ↔
        cstr "serve" ∈ argv.takeWhile (fun a => a ≠ dashdash) ∧
          (cstr "-d" ∈ argv.takeWhile (fun a => a ≠ dashdash) ∨
            cstr "--daemon" ∈ argv.takeWhile (fun a => a ≠ dashdash)))) ∧
    ((fcntl_getfd 0 = -1 ∨ fcntl_getfd 1 = -1 ∨ fcntl_getfd 2 = -1) →
      isunsupported fcntl_getfd argv = true) := by
  constructor
  · rintro ⟨h0, h1, h2⟩
    have hl := isunsupported_loop_spec argv 0 (by decide)
    have hb := (isunsupported_or_bits _ hl.1).2.2
    have hno : ¬ (fcntl_getfd 0 = -1 ∨ fcntl_getfd 1 = -1 ∨ fcntl_getfd 2 = -1) := by
      rintro (h | h | h) <;> contradiction
    simp only [isunsupported, if_neg hno, beq_iff_eq]
    rw [hb, hl.2.1, hl.2.2]
    simp
  · intro h
    simp only [isunsupported, if_pos h]

/-- Witness of C2: `serve --daemon` with the three descriptors open. -/
theorem C2_isunsupported_witness :
    isunsupported (fun _ => 0) [cstr "serve", cstr "--daemon"] = true ↔
      cstr "serve" ∈ [cstr "serve", cstr "--daemon"].takeWhile (fun a => a ≠ dashdash) ∧
        (cstr "-d" ∈ [cstr "serve", cstr "--daemon"].takeWhile (fun a => a ≠ dashdash) ∨
          cstr "--daemon" ∈ [cstr "serve", cstr "--daemon"].takeWhile (fun a => a ≠ dashdash)) :=
  (C2_isunsupported (fun _ => 0) [cstr "serve", cstr "--daemon"]).1 (by decide)

/-! ### Instructions -/

theorem take_head (inst w : CStr) (n : Nat) (c : Char) (h : inst.take (n + 1) = c :: w) :
    inst.head? = some c := by
  cases inst with
  | nil => simp at h
  | cons a as => simp at h; simp [h.1]

theorem redirect_not_unlink (inst : CStr) (h : inst.take 9 = cstr "redirect ") :
    inst.take 7 ≠ cstr "unlink " := by
  intro h7
  have h1 := take_head inst _ 8 'r' h
  have h2 := take_head inst _ 6 'u' h7
  rw [h1] at h2
  exact absurd h2 (by decide)

theorem exit_not_unlink (inst : CStr) (h : inst.take 5 = cstr "exit ") :
    inst.take 7 ≠ cstr "unlink " := by
  intro h7
  have h1 := take_head inst _ 4 'e' h
  have h2 := take_head inst _ 6 'u' h7
  rw [h1] at h2
  exact absurd h2 (by decide)

theorem exit_not_redirect (inst : CStr) (h : inst.take 5 = cstr "exit ") :
    inst.take 9 ≠ cstr "redirect " := by
  intro h9
  have h1 := take_head inst _ 4 'e' h
  have h2 := take_head inst _ 8 'r' h9
  rw [h1] at h2
  exact absurd h2 (by decide)

theorem runinstructions_loop_unlink (opts : cmdserveropts) (nr : Bool) (ul : List CStr)
    (inst : CStr) (rest : List CStr) (h : inst.take 7 = cstr "unlink ") :
    runinstructions.loop opts nr ul (inst :: rest) =
      runinstructions.loop opts nr (ul ++ [inst.drop 7]) rest := by
  simp only [runinstructions.loop, if_pos h]

theorem runinstructions_loop_redirect (opts : cmdserveropts) (nr : Bool) (ul : List CStr)
    (inst : CStr) (rest : List CStr) (h : inst.take 9 = cstr "redirect ")
    (hlen : (inst.drop 9).length < PATH_MAX) :
    runinstructions.loop opts nr ul (inst :: rest) =
      runinstructions.loop { opts with redirectsockname := inst.drop 9 } true ul rest := by
  have hfit : List.take (PATH_MAX - 1) (inst.drop 9) = inst.drop 9 :=
    List.take_of_length_le (by omega)
  simp only [runinstructions.loop, if_neg (redirect_not_unlink inst h), if_pos h,
    if_neg (Nat.not_le.mpr hlen), hfit]

theorem runinstructions_loop_reconnect (opts : cmdserveropts) (nr : Bool) (ul : List CStr)
    (rest : List CStr) :
    runinstructions.loop opts nr ul (cstr "reconnect" :: rest) =
      runinstructions.loop opts true ul rest := by
  have h7 : (cstr "reconnect").take 7 ≠ cstr "unlink " := by decide
  have h9 : (cstr "reconnect").take 9 ≠ cstr "redirect " := by decide
  have h5 : (cstr "reconnect").take 5 ≠ cstr "exit " := by decide
  simp only [runinstructions.loop, if_neg h7, if_neg h9, if_neg h5, if_true]

/-- Once the instructions of `pre` have been run and the loop is still going, the loop
carries on with what follows them. -/
theorem runinstructions_loop_append (pre post : List CStr) :
    ∀ (opts : cmdserveropts) (nr : Bool) (ul : List CStr) (b : Bool) (o : cmdserveropts)
      (u : List CStr), runinstructions.loop opts nr ul pre = ⟨.ret b, o, u⟩ →
      runinstructions.loop opts nr ul (pre ++ post) = runinstructions.loop o b u post := by
  induction pre with
  | nil =>
    intro opts nr ul b o u h
    simp only [runinstructions.loop, Effect.mk.injEq, Outcome.ret.injEq] at h
    obtain ⟨rfl, rfl, rfl⟩ := h
    rfl
  | cons inst rest ih =>
    intro opts nr ul b o u h
    rw [List.cons_append]
    simp only [runinstructions.loop] at h ⊢
    split_ifs at h ⊢ with h7 h9 hlen h5 hr
    · exact ih _ _ _ _ _ _ h
    · simp at h
    · exact ih _ _ _ _ _ _ h
    · split at h <;> simp at h
    · exact ih _ _ _ _ _ _ h
    · simp at h

/-- On a batch of `unlink`, fitting `redirect` and `reconnect` instructions the loop returns;
it reports a reconnection if one was pending or an instruction asks for one, it unlinks the
paths of the `unlink` instructions, and it writes no field but `redirectsockname`, which it
leaves alone when there is no `redirect`. -/
theorem runinstructions_loop_plain (insts : List CStr) :
    ∀ (opts : cmdserveropts) (nr : Bool) (ul : List CStr),
      (∀ inst ∈ insts, inst.take 7 = cstr "unlink " ∨
        (inst.take 9 = cstr "redirect " ∧ (inst.drop 9).length < PATH_MAX) ∨
        inst = cstr "reconnect") →
      ∃ o : cmdserveropts,
        runinstructions.loop opts nr ul insts =
          ⟨.ret (nr || insts.any (fun inst =>
              decide (inst.take 9 = cstr "redirect " ∨ inst = cstr "reconnect"))), o,
            ul ++ (insts.filter (fun inst => decide (inst.take 7 = cstr "unlink "))).map
              (List.drop 7)⟩ ∧
        o.sockname = opts.sockname ∧ o.initsockname = opts.initsockname ∧
        o.args = opts.args ∧
        ((∀ inst ∈ insts, inst.take 9 ≠ cstr "redirect ") →
          o.redirectsockname = opts.redirectsockname) := by
  induction insts with
  | nil => intro opts nr ul _; exact ⟨opts, by simp [runinstructions.loop]⟩
  | cons inst rest ih =>
    intro opts nr ul hp
    have hrest := fun i hi => hp i (List.mem_cons_of_mem _ hi)
    rcases hp inst (List.mem_cons_self _ _) with h7 | ⟨h9, hlen⟩ | hr
    · obtain ⟨o, ho, h1, h2, h3, h4⟩ := ih opts nr (ul ++ [inst.drop 7]) hrest
      have n9 : inst.take 9 ≠ cstr "redirect " := fun h => redirect_not_unlink inst h h7
      have nr' : inst ≠ cstr "reconnect" := by
        intro h; rw [h] at h7; exact absurd h7 (by decide)
      refine ⟨o, ?_, h1, h2, h3, fun hno => h4 (fun i hi => hno i (List.mem_cons_of_mem _ hi))⟩
      rw [runinstructions_loop_unlink opts nr ul inst rest h7, ho]
      simp [h7, n9, nr']
    · obtain ⟨o, ho, h1, h2, h3, -⟩ :=
        ih { opts with redirectsockname := inst.drop 9 } true ul hrest
      refine ⟨o, ?_, h1, h2, h3, fun hno => absurd h9 (hno inst (List.mem_cons_self _ _))⟩
      rw [runinstructions_loop_redirect opts nr ul inst rest h9 hlen, ho]
      simp [h9, redirect_not_unlink inst h9]
    · subst hr
      obtain ⟨o, ho, h1, h2, h3, h4⟩ := ih opts true ul hrest
      have h7 : (cstr "reconnect").take 7 ≠ cstr "unlink " := by decide
      refine ⟨o, ?_, h1, h2, h3, fun hno => h4 (fun i hi => hno i (List.mem_cons_of_mem _ hi))⟩
      rw [runinstructions_loop_reconnect, ho]
      simp [h7]

/-- How `runinstructions` finishes and what it unlinks does not depend on the options. -/
theorem runinstructions_loop_outcome_indep (insts : List CStr) :
    ∀ (o1 o2 : cmdserveropts) (nr : Bool) (ul : List CStr),
      (runinstructions.loop o1 nr ul insts).outcome = (runinstructions.loop o2 nr ul insts).outcome ∧
      (runinstructions.loop o1 nr ul insts).unlinked =
        (runinstructions.loop o2 nr ul insts).unlinked := by
  induction insts with
  | nil => intro o1 o2 nr ul; simp [runinstructions.loop]
  | cons inst rest ih =>
    intro o1 o2 nr ul
    simp only [runinstructions.loop]
    split_ifs with h7 h9 hlen h5 hr
    · exact ih _ _ _ _
    · simp
    · exact ih _ _ _ _
    · split <;> simp
    · exact ih _ _ _ _
    · simp

theorem runinstructions_outcome_indep (o1 o2 : cmdserveropts) (insts : Option (List CStr)) :
    (runinstructions o1 insts).outcome = (runinstructions o2 insts).outcome ∧
      (runinstructions o1 insts).unlinked = (runinstructions o2 insts).unlinked := by
  cases insts with
  | none => simp [runinstructions]
  | some l => exact runinstructions_loop_outcome_indep l _ _ _ _

/-- C3. For a non-null batch made only of `unlink <path>`, `redirect <path>` with a path
shorter than `PATH_MAX`, and `reconnect`, `runinstructions` returns, and it returns true
exactly when the batch holds a `redirect` or a `reconnect`; `redirectsockname` ends as the
path of the last `redirect` of the batch (a `redirect` that no `redirect` follows), or
empty when the batch holds none, whatever it was before; `sockname`, `initsockname` and
`args` are as before. -/
theorem C3_runinstructions_result (opts : cmdserveropts) (insts : List CStr)
    (hplain : ∀ inst ∈ insts, inst.take 7 = cstr "unlink " ∨
      (inst.take 9 = cstr "redirect " ∧ (inst.drop 9).length < PATH_MAX) ∨
      inst = cstr "reconnect") :
    (∃ b, (runinstructions opts (some insts)).outcome = .ret b ∧
      (b = true ↔ ∃ inst ∈ insts, inst.take 9 = cstr "redirect " ∨ inst = cstr "reconnect")) ∧
    (∀ pre r post, insts = pre ++ r :: post → r.take 9 = cstr "redirect " →
      (∀ inst ∈ post, inst.take 9 ≠ cstr "redirect ") →
      (runinstructions opts (some insts)).opts.redirectsockname = r.drop 9) ∧
    ((∀ inst ∈ insts, inst.take 9 ≠ cstr "redirect ") →
      (runinstructions opts (some insts)).opts.redirectsockname = []) ∧
    (runinstructions opts (some insts)).opts.sockname = opts.sockname ∧
    (runinstructions opts (some insts)).opts.initsockname = opts.initsockname ∧
    (runinstructions opts (some insts)).opts.args = opts.args := by
  obtain ⟨o, ho, h1, h2, h3, h4⟩ :=
    runinstructions_loop_plain insts { opts with redirectsockname := [] } false [] hplain
  have hrun : runinstructions opts (some insts) =
      runinstructions.loop { opts with redirectsockname := [] } false [] insts := rfl
  refine ⟨⟨_, by rw [hrun, ho], by simp⟩, ?_, ?_, ?_, ?_, ?_⟩
  · intro pre r post hsplit hr hpost
    subst hsplit
    have hpre : ∀ inst ∈ pre, inst.take 7 = cstr "unlink " ∨
        (inst.take 9 = cstr "redirect " ∧ (inst.drop 9).length < PATH_MAX) ∨
        inst = cstr "reconnect" := fun i hi => hplain i (by simp [hi])
    have hpost' : ∀ inst ∈ post, inst.take 7 = cstr "unlink " ∨
        (inst.take 9 = cstr "redirect " ∧ (inst.drop 9).length < PATH_MAX) ∨
        inst = cstr "reconnect" := fun i hi => hplain i (by simp [hi])
    have hrlen : (r.drop 9).length < PATH_MAX := by
      rcases hplain r (by simp) with h7 | ⟨-, hl⟩ | hrc
      · exact absurd h7 (redirect_not_unlink r hr)
      · exact hl
      · rw [hrc] at hr; exact absurd hr (by decide)
    obtain ⟨o1, ho1, -⟩ :=
      runinstructions_loop_plain pre { opts with redirectsockname := [] } false [] hpre
    obtain ⟨o2, ho2, -, -, -, hkeep⟩ :=
      runinstructions_loop_plain post { o1 with redirectsockname := r.drop 9 } true _ hpost'
    rw [hrun, runinstructions_loop_append pre (r :: post) _ _ _ _ _ _ ho1,
      runinstructions_loop_redirect _ _ _ r post hr hrlen, ho2]
    exact hkeep hpost
  · intro hno
    rw [hrun, ho]
    exact h4 hno
  · rw [hrun, ho]; exact h1
  · rw [hrun, ho]; exact h2
  · rw [hrun, ho]; exact h3

/-- Witness of C3: the batch `unlink /x`, `redirect /tmp/a`, `redirect /tmp/s`, `reconnect`
leaves `/tmp/s` in `redirectsockname`. -/
theorem C3_runinstructions_result_witness :
    (runinstructions ⟨cstr "/s", cstr "/s.1", cstr "/old", []⟩
        (some ([cstr "unlink /x", cstr "redirect /tmp/a"] ++
          cstr "redirect /tmp/s" :: [cstr "reconnect"]))).opts.redirectsockname =
      (cstr "redirect /tmp/s").drop 9 :=
  (C3_runinstructions_result ⟨cstr "/s", cstr "/s.1", cstr "/old", []⟩
    ([cstr "unlink /x", cstr "redirect /tmp/a"] ++ cstr "redirect /tmp/s" :: [cstr "reconnect"])
    (by decide)).2.1 [cstr "unlink /x", cstr "redirect /tmp/a"] (cstr "redirect /tmp/s")
      [cstr "reconnect"] rfl (by decide) (by decide)

/-- C10, as stated, fails: an empty (non-null) batch applied to options whose
`redirectsockname` is `/tmp/alt` returns false but leaves `redirectsockname` empty. -/
theorem C10_counterexample :
    runinstructions ⟨cstr "/tmp/s", cstr "/tmp/s.7", cstr "/tmp/alt", []⟩ (some []) =
      ⟨.ret false, ⟨cstr "/tmp/s", cstr "/tmp/s.7", [], []⟩, []⟩ ∧
    (runinstructions ⟨cstr "/tmp/s", cstr "/tmp/s.7", cstr "/tmp/alt", []⟩ (some [])).opts ≠
      ⟨cstr "/tmp/s", cstr "/tmp/s.7", cstr "/tmp/alt", []⟩ := by
  decide

/-- C10, amended. An empty batch makes `runinstructions` return false, unlink nothing and
leave `sockname`, `initsockname` and `args` as they are, and it empties `redirectsockname`:
the options are unchanged exactly when `redirectsockname` was empty already. A null batch
returns false and leaves every field unchanged. -/
theorem C10_empty_batch (opts : cmdserveropts) :
    runinstructions opts (some []) =
      ⟨.ret false, { opts with redirectsockname := [] }, []⟩ ∧
    ((runinstructions opts (some [])).opts = opts ↔ opts.redirectsockname = []) ∧
    runinstructions opts none = ⟨.ret false, opts, []⟩ := by
  refine ⟨rfl, ?_, rfl⟩
  show ({ opts with redirectsockname := [] } : cmdserveropts) = opts ↔ _
  cases opts
  simp

/-! ### The session loop -/

theorem main_loop_eq (validate : Nat → Option (List CStr)) (retry : Nat) (opts : cmdserveropts)
    (trace : List Event) :
    main.loop validate retry opts trace =
      match (runinstructions opts (validate retry)).outcome with
      | .exit n => (.exit n, trace ++ [Event.connect retry (connectcmdserver.sockname opts),
          Event.setenv, Event.validate] ++
          (runinstructions opts (validate retry)).unlinked.map Event.unlink)
      | .abort msg => (.abort msg, trace ++ [Event.connect retry (connectcmdserver.sockname opts),
          Event.setenv, Event.validate] ++
          (runinstructions opts (validate retry)).unlinked.map Event.unlink)
      | .ret needreconnect =>
        if needreconnect = false then
          (.ret ((runinstructions opts (validate retry)).opts, retry),
            trace ++ [Event.connect retry (connectcmdserver.sockname opts),
              Event.setenv, Event.validate] ++
              (runinstructions opts (validate retry)).unlinked.map Event.unlink)
        else if retry + 1 > 10 then
          (.abort "too many redirections",
            trace ++ [Event.connect retry (connectcmdserver.sockname opts),
              Event.setenv, Event.validate] ++
              (runinstructions opts (validate retry)).unlinked.map Event.unlink ++ [Event.close])
        else main.loop validate (retry + 1) (runinstructions opts (validate retry)).opts
          (trace ++ [Event.connect retry (connectcmdserver.sockname opts),
              Event.setenv, Event.validate] ++
              (runinstructions opts (validate retry)).unlinked.map Event.unlink ++ [Event.close]) := by
  rw [main.loop]

/-- What `runinstructions` does on a batch whose first instruction that is not an `unlink`,
a fitting `redirect` or a `reconnect` is an `exit`. -/
theorem runinstructions_exit_after_plain (opts : cmdserveropts) (pre post : List CStr)
    (e : CStr)
    (hpre : ∀ inst ∈ pre, inst.take 7 = cstr "unlink " ∨
      (inst.take 9 = cstr "redirect " ∧ (inst.drop 9).length < PATH_MAX) ∨
      inst = cstr "reconnect")
    (he : e.take 5 = cstr "exit ") :
    (runinstructions opts (some (pre ++ e :: post))).outcome =
        (match sscanf_d (e.drop 5) with
          | none => .abort "cannot read the exit code"
          | some n => .exit n) ∧
      (runinstructions opts (some (pre ++ e :: post))).unlinked =
        (pre.filter (fun inst => decide (inst.take 7 = cstr "unlink "))).map (List.drop 7) := by
  obtain ⟨o, ho, -⟩ :=
    runinstructions_loop_plain pre { opts with redirectsockname := [] } false [] hpre
  have hrun : runinstructions opts (some (pre ++ e :: post)) =
      runinstructions.loop { opts with redirectsockname := [] } false [] (pre ++ e :: post) := rfl
  rw [hrun, runinstructions_loop_append pre (e :: post) _ _ _ _ _ _ ho]
  simp only [runinstructions.loop, if_neg (exit_not_unlink e he),
    if_neg (exit_not_redirect e he), if_pos he, List.nil_append]
  cases sscanf_d (e.drop 5) <;> simp

/-! ### Reading back a printed integer -/

theorem digitChar_props (m : Nat) (h : m < 10) :
    (Nat.digitChar m).isDigit = true ∧ isspace (Nat.digitChar m) = false ∧
      Nat.digitChar m ≠ '-' ∧ Nat.digitChar m ≠ '+' ∧ (Nat.digitChar m).toNat - 48 = m := by
  interval_cases m <;> decide

theorem digitsval_concat (l : List Char) (d : Char) :
    digitsval (l ++ [d]) = digitsval l * 10 + (d.toNat - 48) := by
  simp [digitsval, List.foldl_append]

/-- The digits `Nat.toDigitsCore` puts in front of `ds`, given fuel enough, are a non-empty
run of decimal digit characters whose value is `n`. -/
theorem toDigitsCore_spec (fuel : Nat) :
    ∀ (n : Nat) (ds : List Char), n < fuel →
      ∃ l : List Char, Nat.toDigitsCore 10 fuel n ds = l ++ ds ∧ l ≠ [] ∧
        (∀ c ∈ l, ∃ m, m < 10 ∧ c = Nat.digitChar m) ∧ digitsval l = n := by
  induction fuel with
  | zero => intro n ds h; omega
  | succ f ih =>
    intro n ds h
    have hd := digitChar_props (n % 10) (Nat.mod_lt _ (by decide))
    rw [Nat.toDigitsCore]
    split_ifs with h0
    · refine ⟨[Nat.digitChar (n % 10)], rfl, by simp, ?_, ?_⟩
      · intro c hc
        rw [List.mem_singleton] at hc
        exact ⟨n % 10, Nat.mod_lt _ (by decide), hc⟩
      · have := digitsval_concat [] (Nat.digitChar (n % 10))
        rw [List.nil_append] at this
        rw [this, hd.2.2.2.2]
        simp only [digitsval, List.foldl_nil]
        omega
    · obtain ⟨l, hl, hne, hall, hval⟩ := ih (n / 10) (Nat.digitChar (n % 10) :: ds) (by omega)
      refine ⟨l ++ [Nat.digitChar (n % 10)], ?_, by simp, ?_, ?_⟩
      · rw [hl]; simp
      · intro c hc
        rw [List.mem_append, List.mem_singleton] at hc
        rcases hc with hc | hc
        · exact hall c hc
        · exact ⟨n % 10, Nat.mod_lt _ (by decide), hc⟩
      · rw [digitsval_concat, hval, hd.2.2.2.2]
        omega

/-- On a run of decimal digits `sscanf_d` reads all of it. -/
theorem sscanf_d_digits (l : List Char) (hne : l ≠ [])
    (hall : ∀ c ∈ l, ∃ m, m < 10 ∧ c = Nat.digitChar m) :
    sscanf_d l = some (toint32 (strtol_clamp (digitsval l))) ∧
    sscanf_d ('-' :: l) = some (toint32 (strtol_clamp (- (digitsval l : Int)))) := by
  have hdig : ∀ c ∈ l, c.isDigit = true := by
    intro c hc
    obtain ⟨m, hm, rfl⟩ := hall c hc
    exact (digitChar_props m hm).1
  have htw : l.takeWhile Char.isDigit = l := List.takeWhile_eq_self_iff.mpr hdig
  cases l with
  | nil => exact absurd rfl hne
  | cons c t =>
    obtain ⟨m, hm, hc⟩ := hall c (List.mem_cons_self _ _)
    have hp := digitChar_props m hm
    rw [← hc] at hp
    constructor
    · have hdw : List.dropWhile isspace (c :: t) = c :: t :=
        List.dropWhile_cons_of_neg (by simp [hp.2.1])
      simp only [sscanf_d, hdw, List.head?_cons, Option.some.injEq, hp.2.2.1, hp.2.2.2.1,
        or_self, if_false, htw]
      simp
    · have hsp : isspace '-' = false := by decide
      have hdw : List.dropWhile isspace ('-' :: c :: t) = '-' :: c :: t :=
        List.dropWhile_cons_of_neg (by simp [hsp])
      simp only [sscanf_d, hdw, List.head?_cons, true_or, if_true, List.tail_cons, htw]
      simp

theorem toint32_of_range (v : Int) (h1 : -2147483648 ≤ v) (h2 : v < 2147483648) :
    toint32 (strtol_clamp v) = v ∧ toint32 v = v := by
  unfold toint32 strtol_clamp
  omega

/-- Reading back with `%d` what `%d` printed gives the integer, for every value of `int`. -/
theorem sscanf_d_fmt_d (n : Int) (h1 : -2147483648 ≤ n) (h2 : n < 2147483648) :
    sscanf_d (fmt_d n) = some n := by
  unfold fmt_d
  split_ifs with hneg
  · obtain ⟨l, hl, hne, hall, hval⟩ := toDigitsCore_spec (n.natAbs + 1) n.natAbs [] (by omega)
    rw [List.append_nil] at hl
    rw [Nat.toDigits, hl, (sscanf_d_digits l hne hall).2, hval]
    have : -((n.natAbs : Nat) : Int) = n := by omega
    rw [this, (toint32_of_range n h1 h2).1]
  · obtain ⟨l, hl, hne, hall, hval⟩ := toDigitsCore_spec (n.toNat + 1) n.toNat [] (by omega)
    rw [List.append_nil] at hl
    rw [Nat.toDigits, hl, (sscanf_d_digits l hne hall).1, hval]
    have : ((n.toNat : Nat) : Int) = n := by omega
    rw [this, (toint32_of_range n h1 h2).1]

/-- C5, as stated, fails: the batch `redirect <4096 bytes>`, `exit 2` holds exactly one
`exit` instruction, whose argument reads as 2, yet `runinstructions` ends the client with
the fatal diagnostic of the overlong path, not with `exit(2)`. And the batch
`exit 2147483648` ends the client with `exit(-2147483648)`: the number written does not fit
the `int` it is stored in. -/
theorem C5_counterexample :
    ([cstr "redirect " ++ List.replicate 4096 'a', cstr "exit 2"].filter
        (fun inst => decide (inst.take 5 = cstr "exit "))) = [cstr "exit 2"] ∧
    sscanf_d ((cstr "exit 2").drop 5) = some 2 ∧
    (runinstructions ⟨[], [], [], []⟩
        (some [cstr "redirect " ++ List.replicate 4096 'a', cstr "exit 2"])).outcome =
      .abort "redirect path is too long" ∧
    (runinstructions ⟨[], [], [], []⟩
        (some [cstr "redirect " ++ List.replicate 4096 'a', cstr "exit 2"])).outcome ≠
      .exit 2 ∧
    (runinstructions ⟨[], [], [], []⟩ (some [cstr "exit 2147483648"])).outcome =
      .exit (-2147483648) := by
  have h7 : (cstr "redirect " ++ List.replicate 4096 'a').take 7 ≠ cstr "unlink " := by
    rw [List.take_append_of_le_length (by decide)]; decide
  have h9 : (cstr "redirect " ++ List.replicate 4096 'a').take 9 = cstr "redirect " := by
    rw [List.take_append_of_le_length (by decide)]; decide
  have h5 : (cstr "redirect " ++ List.replicate 4096 'a').take 5 ≠ cstr "exit " := by
    rw [List.take_append_of_le_length (by decide)]; decide
  have hlen : ((cstr "redirect " ++ List.replicate 4096 'a').drop 9).length ≥ PATH_MAX := by
    rw [List.length_drop, List.length_append, List.length_replicate]; decide
  have hout : (runinstructions ⟨[], [], [], []⟩
      (some [cstr "redirect " ++ List.replicate 4096 'a', cstr "exit 2"])).outcome =
      .abort "redirect path is too long" := by
    simp only [runinstructions, runinstructions.loop, if_neg h7, if_pos h9, if_pos hlen]
  refine ⟨?_, by decide, hout, ?_, by decide⟩
  · have e5 : (cstr "exit 2").take 5 = cstr "exit " := by decide
    simp only [List.filter, h5, e5, decide_True, decide_False]
  · rw [hout]; decide

/-- C5, amended. For a batch in which an `exit` instruction comes after nothing but `unlink`,
fitting `redirect` and `reconnect` instructions: when `sscanf` reads the argument of `exit`
and stores `n` in the `int`, `runinstructions` ends the client by `exit(n)` instead of
returning; only the `unlink` instructions ahead of it have been carried out (nothing after
it is applied); the session loop ends there, with `exit(n)` and no call after the
validation other than those unlinks, so no reconnection and no command; and the session
ends the same way. For every `n` in the range of a 32-bit `int`, the instruction `exit`
followed by `n` in decimal ends the client by `exit(n)`. When the argument does not read as
an integer the client ends with a fatal diagnostic. -/
theorem C5_exit_directive (opts : cmdserveropts) (pre post : List CStr) (e : CStr)
    (hpre : ∀ inst ∈ pre, inst.take 7 = cstr "unlink " ∨
      (inst.take 9 = cstr "redirect " ∧ (inst.drop 9).length < PATH_MAX) ∨
      inst = cstr "reconnect")
    (he : e.take 5 = cstr "exit ") :
    (∀ n : Int, sscanf_d (e.drop 5) = some n →
      (runinstructions opts (some (pre ++ e :: post))).outcome = .exit n ∧
      (runinstructions opts (some (pre ++ e :: post))).unlinked =
        (pre.filter (fun inst => decide (inst.take 7 = cstr "unlink "))).map (List.drop 7) ∧
      (∀ (validate : Nat → Option (List CStr)) (retry : Nat) (trace : List Event),
        validate retry = some (pre ++ e :: post) →
        main.loop validate retry opts trace =
          (.exit n, trace ++ [Event.connect retry (connectcmdserver.sockname opts),
            Event.setenv, Event.validate] ++
            ((pre.filter (fun inst => decide (inst.take 7 = cstr "unlink "))).map
              (List.drop 7)).map Event.unlink)) ∧
      (∀ (validate : Nat → Option (List CStr)) (runcommand : Int),
        validate 0 = some (pre ++ e :: post) →
        main.session validate runcommand opts =
          (.exit n, [Event.connect 0 (connectcmdserver.sockname opts),
            Event.setenv, Event.validate] ++
            ((pre.filter (fun inst => decide (inst.take 7 = cstr "unlink "))).map
              (List.drop 7)).map Event.unlink))) ∧
    (∀ n : Int, -2147483648 ≤ n → n < 2147483648 → e = cstr "exit " ++ fmt_d n →
      sscanf_d (e.drop 5) = some n ∧
      (runinstructions opts (some (pre ++ e :: post))).outcome = .exit n) ∧
    (sscanf_d (e.drop 5) = none →
      (runinstructions opts (some (pre ++ e :: post))).outcome =
        .abort "cannot read the exit code") := by
  obtain ⟨hout, hul⟩ := runinstructions_exit_after_plain opts pre post e hpre he
  refine ⟨fun n hn => ?_, fun n h1 h2 hn => ?_, fun hnone => ?_⟩
  · rw [hn] at hout
    have hloop : ∀ (validate : Nat → Option (List CStr)) (retry : Nat) (trace : List Event),
        validate retry = some (pre ++ e :: post) →
        main.loop validate retry opts trace =
          (.exit n, trace ++ [Event.connect retry (connectcmdserver.sockname opts),
            Event.setenv, Event.validate] ++
            ((pre.filter (fun inst => decide (inst.take 7 = cstr "unlink "))).map
              (List.drop 7)).map Event.unlink) := by
      intro validate retry trace hv
      rw [main_loop_eq, hv, hout, hul]
    refine ⟨hout, hul, hloop, ?_⟩
    intro validate runcommand hv
    simp only [main.session, hloop validate 0 [] hv, List.nil_append]
  · have hread : sscanf_d (e.drop 5) = some n := by
      have hlen : (cstr "exit ").length = 5 := by decide
      rw [hn, ← hlen, List.drop_left]
      exact sscanf_d_fmt_d n h1 h2
    rw [hread] at hout
    exact ⟨hread, hout⟩
  · rw [hnone] at hout
    exact hout

/-- Witness of C5 (amended): the batch `unlink /x`, `exit 2`, `reconnect`. -/
theorem C5_exit_directive_witness :
    main.session (fun _ => some ([cstr "unlink /x"] ++ cstr "exit 2" :: [cstr "reconnect"])) 0
        ⟨cstr "/s", cstr "/s.1", [], []⟩ =
      (.exit 2, [Event.connect 0 (connectcmdserver.sockname ⟨cstr "/s", cstr "/s.1", [], []⟩),
        Event.setenv, Event.validate] ++
        (([cstr "unlink /x"].filter (fun inst => decide (inst.take 7 = cstr "unlink "))).map
          (List.drop 7)).map Event.unlink) :=
  ((C5_exit_directive ⟨cstr "/s", cstr "/s.1", [], []⟩ [cstr "unlink /x"] [cstr "reconnect"]
    (cstr "exit 2") (by decide) (by decide)).1 2 (by decide)).2.2.2
      (fun _ => some ([cstr "unlink /x"] ++ cstr "exit 2" :: [cstr "reconnect"])) 0 rfl

theorem counters_round (trace : List Event) (retry : Nat) (s : CStr) (u : List CStr) :
    counters (trace ++ [Event.connect retry s, Event.setenv, Event.validate] ++
        u.map Event.unlink) = counters trace ++ [retry] ∧
    counters (trace ++ [Event.connect retry s, Event.setenv, Event.validate] ++
        u.map Event.unlink ++ [Event.close]) = counters trace ++ [retry] := by
  have hu : List.filterMap (fun e => match e with
      | Event.connect retry _ => some retry
      | _ => none) (u.map Event.unlink) = [] := by
    induction u with
    | nil => rfl
    | cons a as ih => simp [List.filterMap_cons]
  simp only [counters, List.filterMap_append, hu]
  simp [List.filterMap_cons]

/-- The run of the session loop from a counter value `retry ≤ 10` when every validation makes
`runinstructions` return: the loop goes round while reconnection is demanded, up to the
round `m ≤ 10` at which it is not demanded (the loop breaks) or at which the eleventh demand
is met (the loop aborts). -/
theorem main_loop_run (validate : Nat → Option (List CStr)) (opts : cmdserveropts)
    (hret : ∀ k, ∃ b, (runinstructions opts (validate k)).outcome = .ret b) (d : Nat) :
    ∀ (retry : Nat), retry + d = 10 → ∀ (o : cmdserveropts) (tr : List Event),
      ∃ m, retry ≤ m ∧ m ≤ 10 ∧
        (∀ k, retry ≤ k → k < m → (runinstructions opts (validate k)).outcome = .ret true) ∧
        counters (main.loop validate retry o tr).2 =
          counters tr ++ List.range' retry (m + 1 - retry) ∧
        (((runinstructions opts (validate m)).outcome = .ret false ∧
            ∃ o2, (main.loop validate retry o tr).1 = .ret (o2, m)) ∨
          (m = 10 ∧ (runinstructions opts (validate 10)).outcome = .ret true ∧
            (main.loop validate retry o tr).1 = .abort "too many redirections")) := by
  induction d with
  | zero =>
    intro retry hr o tr
    have h10 : retry = 10 := by omega
    subst h10
    obtain ⟨b, hb⟩ := hret 10
    have hb2 : (runinstructions o (validate 10)).outcome = .ret b := by
      rw [(runinstructions_outcome_indep o opts _).1]; exact hb
    refine ⟨10, Nat.le_refl _, Nat.le_refl _, fun k h1 h2 => by omega, ?_, ?_⟩
    · rw [main_loop_eq, hb2]
      cases b
      · exact (counters_round tr 10 _ _).1
      · exact (counters_round tr 10 _ _).2
    · rw [main_loop_eq, hb2]
      cases b
      · exact Or.inl ⟨hb, (runinstructions o (validate 10)).opts, rfl⟩
      · exact Or.inr ⟨rfl, hb, rfl⟩
  | succ d ih =>
    intro retry hr o tr
    obtain ⟨b, hb⟩ := hret retry
    have hb2 : (runinstructions o (validate retry)).outcome = .ret b := by
      rw [(runinstructions_outcome_indep o opts _).1]; exact hb
    cases b
    · refine ⟨retry, Nat.le_refl _, by omega, fun k h1 h2 => by omega, ?_, ?_⟩
      · rw [main_loop_eq, hb2]
        have : retry + 1 - retry = 1 := by omega
        rw [this]
        exact (counters_round tr retry _ _).1
      · rw [main_loop_eq, hb2]
        exact Or.inl ⟨hb, (runinstructions o (validate retry)).opts, rfl⟩
    · have hlt : ¬ retry + 1 > 10 := by omega
      have hstep : main.loop validate retry o tr =
          main.loop validate (retry + 1) (runinstructions o (validate retry)).opts
            (tr ++ [Event.connect retry (connectcmdserver.sockname o),
              Event.setenv, Event.validate] ++
              (runinstructions o (validate retry)).unlinked.map Event.unlink ++
              [Event.close]) := by
        rw [main_loop_eq validate retry, hb2]
        simp [hlt]
      obtain ⟨m, hm1, hm2, hall, hcnt, hfin⟩ := ih (retry + 1) (by omega)
        (runinstructions o (validate retry)).opts
        (tr ++ [Event.connect retry (connectcmdserver.sockname o),
              Event.setenv, Event.validate] ++
              (runinstructions o (validate retry)).unlinked.map Event.unlink ++
              [Event.close])
      refine ⟨m, by omega, hm2, ?_, ?_, ?_⟩
      · intro k h1 h2
        by_cases hk : k = retry
        · subst hk; exact hb
        · exact hall k (by omega) h2
      · rw [hstep, hcnt, (counters_round tr retry _ _).2]
        have : m + 1 - retry = (m + 1 - (retry + 1)) + 1 := by omega
        rw [this, List.range'_succ]
        simp
      · rw [hstep]; exact hfin

/-- C4. Over any run of validations each of which makes `runinstructions` return (it demands
reconnection when it returns true): a demand met with the counter below 10 sends the loop
round again with the counter one higher, and a demand met with the counter at 10 (the
eleventh demand, which `++retry > 10` detects) aborts with the too-many-redirections
diagnostic without reconnecting; a validation without demand breaks the loop. From the start
of `main` (counter 0) the counter values at the successive connections are `0, 1, ..., m`
for some `m ≤ 10`, so there are at most 10 reconnections; the loop is left towards the
command exactly when one of the first 11 validations does not demand reconnection, and it
aborts exactly when all of the first 11 demand it. -/
theorem C4_redirection_bound (validate : Nat → Option (List CStr)) (opts : cmdserveropts)
    (hret : ∀ k, ∃ b, (runinstructions opts (validate k)).outcome = .ret b) :
    (∀ (retry : Nat) (o : cmdserveropts) (tr : List Event),
      (runinstructions opts (validate retry)).outcome = .ret true →
        (retry < 10 → main.loop validate retry o tr =
          main.loop validate (retry + 1) (runinstructions o (validate retry)).opts
            (tr ++ [Event.connect retry (connectcmdserver.sockname o),
              Event.setenv, Event.validate] ++
              (runinstructions o (validate retry)).unlinked.map Event.unlink ++
              [Event.close])) ∧
        (10 ≤ retry → (main.loop validate retry o tr).1 = .abort "too many redirections")) ∧
    (∀ (retry : Nat) (o : cmdserveropts) (tr : List Event),
      (runinstructions opts (validate retry)).outcome = .ret false →
        (main.loop validate retry o tr).1 =
          .ret ((runinstructions o (validate retry)).opts, retry)) ∧
    (∃ m, m ≤ 10 ∧ counters (main.loop validate 0 opts []).2 = List.range (m + 1)) ∧
    ((∃ o r, (main.loop validate 0 opts []).1 = .ret (o, r)) ↔
      ∃ k, k < 11 ∧ (runinstructions opts (validate k)).outcome = .ret false) ∧
    ((main.loop validate 0 opts []).1 = .abort "too many redirections" ↔
      ∀ k, k < 11 → (runinstructions opts (validate k)).outcome = .ret true) := by
  obtain ⟨m, -, hm, hall, hcnt, hfin⟩ := main_loop_run validate opts hret 10 0 (by omega) opts []
  refine ⟨?_, ?_, ⟨m, hm, ?_⟩, ?_, ?_⟩
  · intro retry o tr hv
    have hv2 : (runinstructions o (validate retry)).outcome = .ret true := by
      rw [(runinstructions_outcome_indep o opts _).1]; exact hv
    constructor
    · intro hlt
      have : ¬ retry + 1 > 10 := by omega
      rw [main_loop_eq validate retry, hv2]
      simp [this]
    · intro hge
      have : retry + 1 > 10 := by omega
      rw [main_loop_eq validate retry, hv2]
      simp [this]
  · intro retry o tr hv
    have hv2 : (runinstructions o (validate retry)).outcome = .ret false := by
      rw [(runinstructions_outcome_indep o opts _).1]; exact hv
    rw [main_loop_eq validate retry, hv2]
    simp
  · rw [hcnt, List.range_eq_range']
    simp [counters]
  · constructor
    · rintro ⟨o, r, hor⟩
      rcases hfin with ⟨hf, -⟩ | ⟨-, -, hab⟩
      · exact ⟨m, by omega, hf⟩
      · rw [hab] at hor; exact absurd hor (by simp)
    · rintro ⟨k, hk, hkf⟩
      rcases hfin with ⟨-, o2, ho2⟩ | ⟨hm10, h10, -⟩
      · exact ⟨o2, m, ho2⟩
      · exfalso
        have hkt : (runinstructions opts (validate k)).outcome = .ret true := by
          by_cases hk10 : k = 10
          · subst hk10; exact h10
          · exact hall k (Nat.zero_le _) (by omega)
        rw [hkt] at hkf
        exact absurd hkf (by simp)
  · constructor
    · intro hab k hk
      rcases hfin with ⟨-, o2, ho2⟩ | ⟨hm10, h10, -⟩
      · rw [hab] at ho2; exact absurd ho2 (by simp)
      · by_cases hk10 : k = 10
        · subst hk10; exact h10
        · exact hall k (Nat.zero_le _) (by omega)
    · intro hallk
      rcases hfin with ⟨hf, -⟩ | ⟨-, -, hab⟩
      · rw [hallk m (by omega)] at hf
        exact absurd hf (by simp)
      · exact hab

/-- Witness of C4: a server that answers every validation with `reconnect`. -/
theorem C4_redirection_bound_witness :
    (main.loop (fun _ => some [cstr "reconnect"]) 0 ⟨cstr "/s", cstr "/s.1", [], []⟩ []).1 =
        .abort "too many redirections" ↔
      ∀ k, k < 11 →
        (runinstructions ⟨cstr "/s", cstr "/s.1", [], []⟩
          ((fun _ => some [cstr "reconnect"]) k)).outcome = .ret true :=
  (C4_redirection_bound (fun _ => some [cstr "reconnect"]) ⟨cstr "/s", cstr "/s.1", [], []⟩
    (fun _ => ⟨true, rfl⟩)).2.2.2.2

/-! ### Socket paths -/

theorem setcmdserveropts_names_fit (sys : Sys) (opts : cmdserveropts) (sockname : CStr)
    (hfit : (sockname ++ cstr "." ++ fmt_u sys.getpid).length < PATH_MAX) :
    setcmdserveropts.names sys opts sockname =
      .ret { opts with sockname := sockname,
                       initsockname := sockname ++ cstr "." ++ fmt_u sys.getpid } := by
  have h1 : ¬ sockname.length ≥ PATH_MAX := by
    simp only [List.length_append] at hfit; omega
  have h2 : ¬ (sockname ++ cstr "." ++ fmt_u sys.getpid).length ≥ PATH_MAX := by omega
  simp only [setcmdserveropts.names, if_neg h1, if_neg h2]

/-- C6, as stated, fails: with `CHGSOCKNAME` set to the empty string, in an environment
whose default socket directory `/tmp/chg1000` is acceptable and whose paths fit,
`setcmdserveropts` takes the empty value as the socket name (and `.4242` as the initial
one) instead of `/tmp/chg1000/server`. -/
theorem C6_counterexample :
    (sysTmp (some [])).getenv (cstr "CHGSOCKNAME") = some [] ∧
    getdefaultsockdir (sysTmp (some [])) PATH_MAX = .ret (cstr "/tmp/chg1000") ∧
    preparesockdir (sysTmp (some [])) (cstr "/tmp/chg1000") = .ret () ∧
    setcmdserveropts (sysTmp (some [])) ⟨[], [], [], []⟩ =
      .ret ⟨[], cstr ".4242", [], []⟩ ∧
    setcmdserveropts (sysTmp (some [])) ⟨[], [], [], []⟩ ≠
      .ret ⟨cstr "/tmp/chg1000/server", cstr "/tmp/chg1000/server.4242", [], []⟩ := by
  decide

/-- C6, amended. When the paths fit in `PATH_MAX`: if `CHGSOCKNAME` is set, to an empty value
or not, `setcmdserveropts` takes its value verbatim as `sockname`; if it is unset and the
default socket directory is accepted by `preparesockdir`, `sockname` is that directory
followed by `/server`. In both cases `initsockname` is `sockname`, a dot, and the process
id in decimal, and the other fields are kept. -/
theorem C6_socket_path (sys : Sys) (opts : cmdserveropts) (hpid : sys.getpid < 2 ^ 32) :
    (∀ v : CStr, sys.getenv (cstr "CHGSOCKNAME") = some v →
      (v ++ cstr "." ++ Nat.toDigits 10 sys.getpid).length < PATH_MAX →
      setcmdserveropts sys opts =
        .ret { opts with sockname := v,
                         initsockname := v ++ cstr "." ++ Nat.toDigits 10 sys.getpid }) ∧
    (sys.getenv (cstr "CHGSOCKNAME") = none →
      ∀ sockdir : CStr, getdefaultsockdir sys PATH_MAX = .ret sockdir →
      preparesockdir sys sockdir = .ret () →
      (sockdir ++ cstr "/server" ++ cstr "." ++ Nat.toDigits 10 sys.getpid).length < PATH_MAX →
      setcmdserveropts sys opts =
        .ret { opts with sockname := sockdir ++ cstr "/server",
                         initsockname := sockdir ++ cstr "/server" ++ cstr "." ++
                           Nat.toDigits 10 sys.getpid }) := by
  have hu : fmt_u sys.getpid = Nat.toDigits 10 sys.getpid := by
    simp only [fmt_u, Nat.mod_eq_of_lt hpid]
  constructor
  · intro v hv hfit
    rw [← hu] at hfit ⊢
    simp only [setcmdserveropts, hv]
    exact setcmdserveropts_names_fit sys opts v hfit
  · intro hnone sockdir hdir hprep hfit
    rw [← hu] at hfit ⊢
    simp only [setcmdserveropts, hnone, hdir, hprep]
    exact setcmdserveropts_names_fit sys opts _ hfit

/-- Witness of C6 (amended): `CHGSOCKNAME` unset gives `/tmp/chg1000/server` and
`/tmp/chg1000/server.4242`. -/
theorem C6_socket_path_witness :
    setcmdserveropts (sysTmp none) ⟨[], [], [], []⟩ =
      .ret { (⟨[], [], [], []⟩ : cmdserveropts) with
        sockname := cstr "/tmp/chg1000" ++ cstr "/server",
        initsockname := cstr "/tmp/chg1000" ++ cstr "/server" ++ cstr "." ++
          Nat.toDigits 10 (sysTmp none).getpid } :=
  (C6_socket_path (sysTmp none) ⟨[], [], [], []⟩ (by decide)).2 rfl (cstr "/tmp/chg1000")
    (by decide) (by decide) (by decide)

theorem toDigitsCore_getLast (fuel : Nat) :
    ∀ (n : Nat) (ds : List Char),
      (Nat.toDigitsCore 10 (fuel + 1) n ds).getLast? =
        (Nat.digitChar (n % 10) :: ds).getLast? := by
  induction fuel with
  | zero =>
    intro n ds
    simp only [Nat.toDigitsCore]
    split_ifs <;> rfl
  | succ f ih =>
    intro n ds
    rw [Nat.toDigitsCore]
    split_ifs with h
    · rfl
    · rw [ih, List.getLast?_cons_cons]

theorem digitChar_ne_g (k : Nat) : Nat.digitChar (k % 10) ≠ 'g' := by
  have h : k % 10 < 10 := Nat.mod_lt _ (by decide)
  generalize k % 10 = m at h
  interval_cases m <;> decide

/-- The text `%d` writes ends in a decimal digit, so it does not end in `g`. -/
theorem fmt_d_getLast (n : Int) : ∃ c, (fmt_d n).getLast? = some c ∧ c ≠ 'g' := by
  unfold fmt_d
  split_ifs with h
  · refine ⟨Nat.digitChar (n.natAbs % 10), ?_, digitChar_ne_g _⟩
    have := toDigitsCore_getLast n.natAbs n.natAbs []
    rw [Nat.toDigits]
    cases hd : Nat.toDigitsCore 10 (n.natAbs + 1) n.natAbs [] with
    | nil => rw [hd] at this; simp at this
    | cons a as => rw [List.getLast?_cons_cons, ← hd, this]; rfl
  · refine ⟨Nat.digitChar (n.toNat % 10), ?_, digitChar_ne_g _⟩
    exact toDigitsCore_getLast n.toNat n.toNat []

theorem checkruntimedir_iff (sys : Sys) (d : CStr) :
    checkruntimedir sys d = true ↔
      ∃ st, sys.lstat d = some st ∧ S_ISDIR st.st_mode = true ∧ st.st_uid = sys.geteuid ∧
        st.st_mode &&& 0o777 = 0o700 := by
  unfold checkruntimedir
  cases h : sys.lstat d with
  | none => simp
  | some st =>
    by_cases hd : S_ISDIR st.st_mode = true
    · simp [hd]
    · simp [hd]

theorem fmt_d_uid (euid : Nat) (h : euid < 2147483648) :
    fmt_d (toint32 euid) = Nat.toDigits 10 euid := by
  have h1 : toint32 (euid : Int) = (euid : Int) := by
    unfold toint32
    omega
  rw [h1, fmt_d, if_neg (by omega), Int.toNat_ofNat]

/-- C7, as stated, fails on two counts. For the effective user 4000000000, with no runtime
directory and no `TMPDIR`, `getdefaultsockdir` yields `/tmp/chg-294967296`, which is not
`/tmp/chg` followed by the decimal user id. And a runtime directory of mode 01700 (sticky
bit set, so a mode different from 0700) owned by the user is eligible and
`getdefaultsockdir` yields `<runtime>/chg`. -/
theorem C7_counterexample :
    getdefaultsockdir (sysUid 4000000000) PATH_MAX = .ret (cstr "/tmp/chg-294967296") ∧
    getdefaultsockdir (sysUid 4000000000) PATH_MAX ≠
      .ret (cstr "/tmp" ++ cstr "/chg" ++ Nat.toDigits 10 4000000000) ∧
    (sysRun 0o041700 1000).lstat (cstr "/run/user/1000") = some ⟨0o041700, 1000⟩ ∧
    0o041700 &&& 0o7777 ≠ 0o700 ∧
    checkruntimedir (sysRun 0o041700 1000) (cstr "/run/user/1000") = true ∧
    getdefaultsockdir (sysRun 0o041700 1000) PATH_MAX = .ret (cstr "/run/user/1000/chg") := by
  decide

/-- C7, amended. The runtime directory is eligible (`checkruntimedir`) exactly when `lstat`
finds at it a real directory owned by the effective user whose permission bits
`st_mode & 0777` are 0700 (the set-id and sticky bits are not looked at); a directory with
other permission bits or another owner is not eligible. When the result fits in the buffer,
`getdefaultsockdir` yields `<runtime>/chg` when `XDG_RUNTIME_DIR` is set and eligible, and
only then; otherwise, for an effective user id below `2 ^ 31`, it yields
`<tmpdir>/chg<euid>`, with `tmpdir` the value of `TMPDIR` or `/tmp` when unset and the
effective user id in decimal. Hence, for such a user id, when the runtime directory is not
eligible, `CHGSOCKNAME` is unset and the directory is accepted, the socket path is
`<tmpdir>/chg<euid>/server`. -/
theorem C7_default_sockdir (sys : Sys) (size : Nat) (opts : cmdserveropts) :
    (∀ d : CStr, checkruntimedir sys d = true ↔
      ∃ st, sys.lstat d = some st ∧ S_ISDIR st.st_mode = true ∧ st.st_uid = sys.geteuid ∧
        st.st_mode &&& 0o777 = 0o700) ∧
    (∀ (d : CStr) (st : Stat), sys.lstat d = some st →
      (st.st_mode &&& 0o777 ≠ 0o700 ∨ st.st_uid ≠ sys.geteuid) →
      checkruntimedir sys d = false) ∧
    (∀ (runtimedir : CStr) (st : Stat), sys.getenv (cstr "XDG_RUNTIME_DIR") = some runtimedir →
      sys.lstat runtimedir = some st → S_ISDIR st.st_mode = true →
      st.st_uid = sys.geteuid → st.st_mode &&& 0o777 = 0o700 →
      (runtimedir ++ cstr "/chg").length < size →
      getdefaultsockdir sys size = .ret (runtimedir ++ cstr "/chg")) ∧
    (∀ runtimedir : CStr, sys.getenv (cstr "XDG_RUNTIME_DIR") = some runtimedir →
      getdefaultsockdir sys size = .ret (runtimedir ++ cstr "/chg") →
      ∃ st, sys.lstat runtimedir = some st ∧ S_ISDIR st.st_mode = true ∧
        st.st_uid = sys.geteuid ∧ st.st_mode &&& 0o777 = 0o700) ∧
    ((∀ runtimedir : CStr, sys.getenv (cstr "XDG_RUNTIME_DIR") = some runtimedir →
        ¬ ∃ st, sys.lstat runtimedir = some st ∧ S_ISDIR st.st_mode = true ∧
          st.st_uid = sys.geteuid ∧ st.st_mode &&& 0o777 = 0o700) →
      sys.geteuid < 2147483648 →
      (((sys.getenv (cstr "TMPDIR")).getD (cstr "/tmp") ++ cstr "/chg" ++
          Nat.toDigits 10 sys.geteuid).length < size →
        getdefaultsockdir sys size =
          .ret ((sys.getenv (cstr "TMPDIR")).getD (cstr "/tmp") ++ cstr "/chg" ++
            Nat.toDigits 10 sys.geteuid)) ∧
      (sys.getenv (cstr "CHGSOCKNAME") = none →
        preparesockdir sys ((sys.getenv (cstr "TMPDIR")).getD (cstr "/tmp") ++ cstr "/chg" ++
          Nat.toDigits 10 sys.geteuid) = .ret () →
        ((sys.getenv (cstr "TMPDIR")).getD (cstr "/tmp") ++ cstr "/chg" ++
          Nat.toDigits 10 sys.geteuid ++ cstr "/server" ++ cstr "." ++
            fmt_u sys.getpid).length < PATH_MAX →
        setcmdserveropts sys opts =
          .ret { opts with
            sockname := (sys.getenv (cstr "TMPDIR")).getD (cstr "/tmp") ++ cstr "/chg" ++
              Nat.toDigits 10 sys.geteuid ++ cstr "/server",
            initsockname := (sys.getenv (cstr "TMPDIR")).getD (cstr "/tmp") ++ cstr "/chg" ++
              Nat.toDigits 10 sys.geteuid ++ cstr "/server" ++ cstr "." ++
                fmt_u sys.getpid })) := by
  have htmp : getdefaultsockdir.tmp sys =
      (sys.getenv (cstr "TMPDIR")).getD (cstr "/tmp") ++ cstr "/chg" ++
        fmt_d (toint32 sys.geteuid) := by
    unfold getdefaultsockdir.tmp
    cases sys.getenv (cstr "TMPDIR") <;> rfl
  have hnot : (∀ runtimedir : CStr, sys.getenv (cstr "XDG_RUNTIME_DIR") = some runtimedir →
        ¬ ∃ st, sys.lstat runtimedir = some st ∧ S_ISDIR st.st_mode = true ∧
          st.st_uid = sys.geteuid ∧ st.st_mode &&& 0o777 = 0o700) →
      ∀ sz, getdefaultsockdir sys sz =
        if (getdefaultsockdir.tmp sys).length ≥ sz then .abort "too long TMPDIR"
        else .ret (getdefaultsockdir.tmp sys) := by
    intro hne sz
    unfold getdefaultsockdir
    cases hx : sys.getenv (cstr "XDG_RUNTIME_DIR") with
    | none => rfl
    | some rt =>
      have : ¬ checkruntimedir sys rt = true := fun h =>
        hne rt hx ((checkruntimedir_iff sys rt).mp h)
      simp only [if_neg this]
  refine ⟨checkruntimedir_iff sys, ?_, ?_, ?_, ?_⟩
  · intro d st hst hbad
    cases hc : checkruntimedir sys d with
    | false => rfl
    | true =>
      obtain ⟨st2, h1, -, h3, h4⟩ := (checkruntimedir_iff sys d).mp hc
      rw [hst] at h1
      cases h1
      rcases hbad with hb | hb
      · exact absurd h4 hb
      · exact absurd h3 hb
  · intro rt st hx hst hdir huid hmode hfit
    have hc : checkruntimedir sys rt = true :=
      (checkruntimedir_iff sys rt).mpr ⟨st, hst, hdir, huid, hmode⟩
    unfold getdefaultsockdir
    simp only [hx, hc, if_true, if_neg (Nat.not_le.mpr hfit)]
  · intro rt hx hres
    by_contra hne
    have hc : ¬ checkruntimedir sys rt = true := fun h => hne ((checkruntimedir_iff sys rt).mp h)
    unfold getdefaultsockdir at hres
    simp only [hx, if_neg hc] at hres
    split_ifs at hres
    simp only [Outcome.ret.injEq] at hres
    obtain ⟨c, hc1, hc2⟩ := fmt_d_getLast (toint32 sys.geteuid)
    have h1 : (getdefaultsockdir.tmp sys).getLast? = some c := by
      rw [htmp, List.getLast?_append, hc1]; rfl
    have h2 : (rt ++ cstr "/chg").getLast? = some 'g' := by
      rw [List.getLast?_append]; rfl
    rw [hres, h2] at h1
    exact hc2 (Option.some.inj h1).symm
  · intro hne heuid
    rw [← fmt_d_uid sys.geteuid heuid]
    constructor
    · intro hfit
      rw [hnot hne size, htmp, if_neg (Nat.not_le.mpr hfit)]
    · intro hnone hprep hfit
      have hfit2 : ¬ (getdefaultsockdir.tmp sys).length ≥ PATH_MAX := by
        rw [htmp]
        simp only [List.length_append] at hfit ⊢
        omega
      have hdir : getdefaultsockdir sys PATH_MAX =
          .ret ((sys.getenv (cstr "TMPDIR")).getD (cstr "/tmp") ++ cstr "/chg" ++
            fmt_d (toint32 sys.geteuid)) := by
        rw [hnot hne PATH_MAX, if_neg hfit2, htmp]
      simp only [setcmdserveropts, hnone, hdir, hprep]
      exact setcmdserveropts_names_fit sys opts _ hfit

/-- Witness of C7 (amended): for the user 1000 a runtime directory of mode 0750 is not
eligible, and the socket directory is `/tmp/chg1000`. -/
theorem C7_default_sockdir_witness :
    getdefaultsockdir (sysRun 0o040750 1000) PATH_MAX =
      .ret (((sysRun 0o040750 1000).getenv (cstr "TMPDIR")).getD (cstr "/tmp") ++ cstr "/chg" ++
        Nat.toDigits 10 (sysRun 0o040750 1000).geteuid) :=
  ((C7_default_sockdir (sysRun 0o040750 1000) PATH_MAX ⟨[], [], [], []⟩).2.2.2.2
    (by decide) (by decide)).1 (by decide)

/-! ### Attached values and the short flag -/

/-- C11, as stated, fails on both counts: `--traceback=1` is a long-form flag of the table
with a value attached, yet `testsensitiveflag` gives 0 for it; and the short flag `-R` alone
gives 2, so in `chg -R repo status` the argument `repo` that follows it is taken with it. -/
theorem C11_counterexample :
    (cstr "--traceback", 0) ∈ flags ∧
    testsensitiveflag (cstr "--traceback" ++ '=' :: cstr "1") = 0 ∧
    testsensitiveflag (cstr "-R") = 2 ∧
    (setcmdserverargs ⟨[], [], [], []⟩
        [cstr "chg", cstr "-R", cstr "repo", cstr "status"]).args =
      [cstr "-R", cstr "repo"] := by
  refine ⟨by decide, by decide, by decide, ?_⟩
  simp +decide [setcmdserverargs, setcmdserverargs.loop]

theorem testsensitiveflag_attached (name : CStr) (value : CStr)
    (hflag : (name, 1) ∈ flags) (hlong : byteAt name 1 = '-') :
    testsensitiveflag (name ++ '=' :: value) = 1 := by
  simp only [flags, List.mem_cons, Prod.mk.injEq, List.mem_singleton, List.not_mem_nil,
    or_false] at hflag
  have e1 : cstr "--config" = ['-', '-', 'c', 'o', 'n', 'f', 'i', 'g'] := by decide
  have e2 : cstr "--cwd" = ['-', '-', 'c', 'w', 'd'] := by decide
  have e3 : cstr "--repo" = ['-', '-', 'r', 'e', 'p', 'o'] := by decide
  have e4 : cstr "--repository" =
      ['-', '-', 'r', 'e', 'p', 'o', 's', 'i', 't', 'o', 'r', 'y'] := by decide
  have e5 : cstr "--traceback" =
      ['-', '-', 't', 'r', 'a', 'c', 'e', 'b', 'a', 'c', 'k'] := by decide
  have e6 : cstr "-R" = ['-', 'R'] := by decide
  rcases hflag with ⟨rfl, -⟩ | ⟨rfl, -⟩ | ⟨rfl, -⟩ | ⟨rfl, -⟩ | ⟨-, h⟩ | ⟨rfl, -⟩
  · simp +decide [testsensitiveflag, flags, testsensitiveflag.scan, byteAt, e1, e2, e3, e4, e5, e6]
  · simp +decide [testsensitiveflag, flags, testsensitiveflag.scan, byteAt, e1, e2, e3, e4, e5, e6]
  · simp +decide [testsensitiveflag, flags, testsensitiveflag.scan, byteAt, e1, e2, e3, e4, e5, e6]
  · simp +decide [testsensitiveflag, flags, testsensitiveflag.scan, byteAt, e1, e2, e3, e4, e5, e6]
  · exact absurd h (by decide)
  · exact absurd hlong (by decide)

theorem testsensitiveflag_traceback_attached (value : CStr) :
    testsensitiveflag (cstr "--traceback" ++ '=' :: value) = 0 := by
  have e1 : cstr "--config" = ['-', '-', 'c', 'o', 'n', 'f', 'i', 'g'] := by decide
  have e2 : cstr "--cwd" = ['-', '-', 'c', 'w', 'd'] := by decide
  have e3 : cstr "--repo" = ['-', '-', 'r', 'e', 'p', 'o'] := by decide
  have e4 : cstr "--repository" =
      ['-', '-', 'r', 'e', 'p', 'o', 's', 'i', 't', 'o', 'r', 'y'] := by decide
  have e5 : cstr "--traceback" =
      ['-', '-', 't', 'r', 'a', 'c', 'e', 'b', 'a', 'c', 'k'] := by decide
  have e6 : cstr "-R" = ['-', 'R'] := by decide
  simp +decide [testsensitiveflag, flags, testsensitiveflag.scan, byteAt, e1, e2, e3, e4, e5, e6]

theorem testsensitiveflag_short_attached (c : Char) (rest : CStr) (hc : c ≠ Char.ofNat 0) :
    testsensitiveflag (cstr "-R" ++ c :: rest) = 1 := by
  have e1 : cstr "--config" = ['-', '-', 'c', 'o', 'n', 'f', 'i', 'g'] := by decide
  have e2 : cstr "--cwd" = ['-', '-', 'c', 'w', 'd'] := by decide
  have e3 : cstr "--repo" = ['-', '-', 'r', 'e', 'p', 'o'] := by decide
  have e4 : cstr "--repository" =
      ['-', '-', 'r', 'e', 'p', 'o', 's', 'i', 't', 'o', 'r', 'y'] := by decide
  have e5 : cstr "--traceback" =
      ['-', '-', 't', 'r', 'a', 'c', 'e', 'b', 'a', 'c', 'k'] := by decide
  have e6 : cstr "-R" = ['-', 'R'] := by decide
  simp +decide [testsensitiveflag, flags, testsensitiveflag.scan, byteAt, e1, e2, e3, e4, e5, e6, hc]

/-- An argument for which `testsensitiveflag` gives 1 is copied alone and the scan moves to
the next argument. -/
theorem setcmdserverargs_loop_single (argv : List CStr) (i : Nat) (args : List CStr)
    (hi : i < argv.length) (h1 : testsensitiveflag argv[i] = 1) :
    setcmdserverargs.loop argv i args =
      setcmdserverargs.loop argv (i + 1) (args ++ [argv[i]]) := by
  have hdd : argv[i] ≠ dashdash := by
    intro h
    rw [h] at h1
    exact absurd h1 (by decide)
  rw [setcmdserverargs_loop_eq argv i args, dif_pos hi, if_neg hdd,
    if_neg (by rw [h1]; omega), h1, List.drop_eq_getElem_cons hi]
  rfl

/-- C11, amended. A long-form flag of the table that takes a value (`--config`, `--cwd`,
`--repo`, `--repository`) followed by `=value` is sensitive and consumes only itself:
`testsensitiveflag` gives 1 and the scan copies that one argument. `--traceback`, which takes
no value, is not recognised with `=value` attached (`testsensitiveflag` gives 0, the scan
skips it). The short flag `-R` with anything attached consumes only itself; `-R` alone gives
2 and, when an argument follows, the scan copies that argument with it as its value. -/
theorem C11_attached_and_short (argv : List CStr) (i : Nat) (args : List CStr)
    (hi : i < argv.length) :
    (∀ name value : CStr, (name, 1) ∈ flags → byteAt name 1 = '-' →
      testsensitiveflag (name ++ '=' :: value) = 1 ∧
      (argv[i] = name ++ '=' :: value →
        setcmdserverargs.loop argv i args =
          setcmdserverargs.loop argv (i + 1) (args ++ [argv[i]]))) ∧
    (∀ value : CStr,
      testsensitiveflag (cstr "--traceback" ++ '=' :: value) = 0 ∧
      (argv[i] = cstr "--traceback" ++ '=' :: value →
        setcmdserverargs.loop argv i args = setcmdserverargs.loop argv (i + 1) args)) ∧
    (∀ (c : Char) (rest : CStr), c ≠ Char.ofNat 0 →
      testsensitiveflag (cstr "-R" ++ c :: rest) = 1 ∧
      (argv[i] = cstr "-R" ++ c :: rest →
        setcmdserverargs.loop argv i args =
          setcmdserverargs.loop argv (i + 1) (args ++ [argv[i]]))) ∧
    (testsensitiveflag (cstr "-R") = 2 ∧
      (argv[i] = cstr "-R" → ∀ h : i + 1 < argv.length,
        setcmdserverargs.loop argv i args =
          setcmdserverargs.loop argv (i + 2) (args ++ [cstr "-R", argv[i + 1]]))) := by
  refine ⟨fun name value hflag hlong => ?_, fun value => ?_, fun c rest hc => ?_, ?_⟩
  · have h1 := testsensitiveflag_attached name value hflag hlong
    refine ⟨h1, fun harg => ?_⟩
    exact setcmdserverargs_loop_single argv i args hi (by rw [harg]; exact h1)
  · have h0 := testsensitiveflag_traceback_attached value
    refine ⟨h0, fun harg => ?_⟩
    have hdd : argv[i] ≠ dashdash := by
      rw [harg]
      intro h
      have hl := congrArg List.length h
      have e : (cstr "--traceback").length = 11 := by decide
      rw [List.length_append, e] at hl
      simp only [List.length_cons, dashdash, List.length_nil] at hl
      omega
    rw [setcmdserverargs_loop_eq argv i args, dif_pos hi, if_neg hdd,
      if_pos (Or.inl (by rw [harg]; exact h0))]
  · have h1 := testsensitiveflag_short_attached c rest hc
    refine ⟨h1, fun harg => ?_⟩
    exact setcmdserverargs_loop_single argv i args hi (by rw [harg]; exact h1)
  · have h2 : testsensitiveflag (cstr "-R") = 2 := by decide
    refine ⟨h2, fun harg h => ?_⟩
    have hdd : argv[i] ≠ dashdash := by rw [harg]; decide
    have hn : testsensitiveflag argv[i] = 2 := by rw [harg]; exact h2
    rw [setcmdserverargs_loop_eq argv i args, dif_pos hi, if_neg hdd,
      if_neg (by rw [hn]; omega), hn, List.drop_eq_getElem_cons hi,
      List.drop_eq_getElem_cons h, harg]
    rfl

/-- Witness of C11 (amended): in `chg --config=ui.foo=1 -Rrepo status` the argument at
position 1 is copied alone. -/
theorem C11_attached_and_short_witness :
    setcmdserverargs.loop
        [cstr "chg", cstr "--config=ui.foo=1", cstr "-Rrepo", cstr "status"] 1 [] =
      setcmdserverargs.loop
        [cstr "chg", cstr "--config=ui.foo=1", cstr "-Rrepo", cstr "status"] 2
        ([] ++ [[cstr "chg", cstr "--config=ui.foo=1", cstr "-Rrepo", cstr "status"][1]]) :=
  ((C11_attached_and_short
    [cstr "chg", cstr "--config=ui.foo=1", cstr "-Rrepo", cstr "status"] 1 []
    (by decide)).1 (cstr "--config") (cstr "ui.foo=1") (by decide) (by decide)).2 (by decide)

end Chg
